import Mathlib

/-!
# Label and chat-label cache of wuzapi

A shallow embedding of `handlers_labels.go` and `wmiau_labels.go`: the two
process-wide caches, the HTTP handlers that mutate them after a remote
`SendAppState`, and the event reconciler (`processLabelEvents`,
`handleLabelAppStateEvent`).

Go maps are embedded as association lists (`GoMap`): a lookup returns the first
binding of a key, an assignment overwrites the binding in place or appends a
new one.  The functions do not require the keys to be distinct; separate lemmas
show that every state the program can reach has distinct keys.  The mutexes
are not modelled: every operation is one atomic step on the store.
-/

namespace Wuzapi

/-! ## Go maps -/

/-- A Go `map[string]V`, as a list of bindings. -/
abbrev GoMap (V : Type) := List (String × V)

namespace GoMap

/-- The Go lookup `m[k]`: `none` stands for the zero value `nil` of a missing key. -/
def get? {V : Type} : GoMap V → String → Option V
  | [], _ => none
  | (k', v) :: rest, k => if k' = k then some v else get? rest k

/-- The Go assignment `m[k] = v`. -/
def set {V : Type} : GoMap V → String → V → GoMap V
  | [], k, v => [(k, v)]
  | (k', v') :: rest, k, v => if k' = k then (k, v) :: rest else (k', v') :: set rest k v

/-- The keys of the map. -/
def keys {V : Type} (m : GoMap V) : List String := m.map Prod.fst

end GoMap

/-! ## Data model (`handlers_labels.go`, lines 19-44) -/

/-- The Go struct `LabelInfo`. `Color` is an `int32`. -/
structure LabelInfo where
  ID : String
  Name : String
  Color : Int
  PredefinedID : String
  Deleted : Bool
  Active : Bool
  deriving DecidableEq, Repr

/-- The Go struct `ChatLabelAssociation`. -/
structure ChatLabelAssociation where
  ChatJID : String
  LabelID : String
  deriving DecidableEq, Repr

/-- The two package-level caches `labelsCache` and `chatLabelsCache`. -/
structure Store where
  labelsCache : GoMap (GoMap LabelInfo)
  chatLabelsCache : GoMap (List ChatLabelAssociation)
  deriving DecidableEq, Repr

/-- The caches at process start: both maps are empty. -/
def Store.empty : Store := ⟨[], []⟩

/-- The label table of a user, empty when the user has no namespace. -/
def Store.labelsOf (s : Store) (userID : String) : GoMap LabelInfo :=
  (s.labelsCache.get? userID).getD []

/-- The association list of a user, empty when the user has no namespace. -/
def Store.assocsOf (s : Store) (userID : String) : List ChatLabelAssociation :=
  (s.chatLabelsCache.get? userID).getD []

/-- The assignment `labelsCache[userID] = m`. -/
def Store.setLabels (s : Store) (userID : String) (m : GoMap LabelInfo) : Store :=
  { s with labelsCache := s.labelsCache.set userID m }

/-- The assignment `chatLabelsCache[userID] = xs`. -/
def Store.setAssocs (s : Store) (userID : String) (xs : List ChatLabelAssociation) : Store :=
  { s with chatLabelsCache := s.chatLabelsCache.set userID xs }

/-! ## External collaborators -/

/-- A `types.JID` of the client library, kept as its `String()` rendering. -/
structure JID where
  str : String
  deriving DecidableEq, Repr

/-- The patch descriptors built by `appstate.BuildLabelEdit` and
`appstate.BuildLabelChat`; the handlers never look inside them. -/
inductive Patch where
  | BuildLabelEdit (labelID name : String) (color : Int) (deleted : Bool)
  | BuildLabelChat (chat : JID) (labelID : String) (labeled : Bool)
  deriving DecidableEq, Repr

/-- The `*MyClient` of a user, as far as the label handlers use it. -/
structure MyClient where
  /-- The result of `WAClient.IsConnected()`. -/
  IsConnected : Bool
  /-- The result of `WAClient.SendAppState(ctx, patch)`: `none` is a nil error,
  `some e` an error whose `Error()` text is `e`. -/
  SendAppState : Patch → Option String

/-- Everything a handler reads from outside the caches. -/
structure Env where
  /-- The lookup `clientManager.GetMyClient(txtid)`. -/
  GetMyClient : String → Option MyClient
  /-- The helper `parseJID`, whose second result `valid` is `isSome`. -/
  parseJID : String → Option JID
  /-- The clock reading `time.Now().Unix()`. -/
  now : Int

/-- What a handler passes to `s.Respond`. -/
inductive Body where
  /-- An `errors.New(msg)`. -/
  | error (msg : String)
  /-- The success object of `CreateLabel`. -/
  | created (label_id name : String) (color : Int) (message : String)
  /-- A success object carrying only a message. -/
  | message (message : String)
  /-- The success object of `ListLabels`. -/
  | labels (labels : List LabelInfo) (count : Nat) (source : String)
  deriving DecidableEq, Repr

/-- The status code and payload of a response. -/
structure Response where
  status : Nat
  body : Body
  deriving DecidableEq, Repr

/-- A response is an error when its payload is an `errors.New`. -/
def Response.isError (r : Response) : Bool :=
  match r.body with
  | .error _ => true
  | _ => false

/-- The result of running a handler: the caches afterwards, the response, and
the patches handed to `SendAppState` during the call. -/
structure Outcome where
  store : Store
  resp : Response
  sent : List Patch

/-! ## String helpers of the Go standard library -/

/-- The Go call `strings.ReplaceAll(s, " ", "_")`. -/
def replaceSpaces (s : String) : String :=
  ⟨s.data.map (fun c => if c = ' ' then '_' else c)⟩

/-- Whether the characters `p` begin the characters `s`. -/
def startsWithChars : List Char → List Char → Bool
  | [], _ => true
  | _ :: _, [] => false
  | a :: p, b :: s => a == b && startsWithChars p s

/-- Whether `sub` occurs somewhere in the characters `s`. -/
def containsChars (sub : List Char) : List Char → Bool
  | [] => startsWithChars sub []
  | c :: s => startsWithChars sub (c :: s) || containsChars sub s

/-- The Go call `strings.Contains(s, sub)`. -/
def stringsContains (s sub : String) : Bool := containsChars sub.data s.data

/-! ## Cache helpers (`handlers_labels.go`, lines 49-101) -/

/-- The Go function `getUserLabels`: a fresh map whose values are rebuilt from
the fields `ID`, `Name`, `Color` and `Active` of the cached values. -/
def getUserLabels (s : Store) (userID : String) : GoMap LabelInfo :=
  match s.labelsCache.get? userID with
  | none => []
  | some m =>
    m.map (fun kv =>
      (kv.1, { ID := kv.2.ID, Name := kv.2.Name, Color := kv.2.Color,
               PredefinedID := "", Deleted := false, Active := kv.2.Active }))

/-- The table `commonLabels` of `createCommonLabels`. -/
def commonLabels : List (String × LabelInfo) :=
  [ ("importante", ⟨"importante", "⭐ Importante", 0, "", false, true⟩),
    ("trabalho", ⟨"trabalho", "💼 Trabalho", 4, "", false, true⟩),
    ("familia", ⟨"familia", "👨‍👩‍👧‍👦 Família", 3, "", false, true⟩),
    ("urgente", ⟨"urgente", "🚨 Urgente", 0, "", false, true⟩),
    ("pendente", ⟨"pendente", "⏳ Pendente", 1, "", false, true⟩),
    ("concluido", ⟨"concluido", "✅ Concluído", 3, "", false, true⟩) ]

/-- The Go function `createCommonLabels`. -/
def createCommonLabels (s : Store) (userID : String) : Store :=
  let m0 := (s.labelsCache.get? userID).getD []
  let m := commonLabels.foldl
    (fun m kv =>
      match m.get? kv.1 with
      | none => m.set kv.1 { ID := kv.2.ID, Name := kv.2.Name, Color := kv.2.Color,
                             PredefinedID := "", Deleted := false, Active := kv.2.Active }
      | some _ => m)
    m0
  { s with labelsCache := s.labelsCache.set userID m }

/-! ## Handlers (`handlers_labels.go`, lines 105-615)

Each handler takes the decoded request body, `none` when `json.Decode` fails.
The branch on a failing `json.Marshal` of the response is left out: the
response objects are maps of strings, numbers and booleans. -/

/-- The request body of `CreateLabel`. -/
structure CreateLabelRequest where
  Name : String
  Color : Int

/-- The request body of `DeleteLabel`. -/
structure DeleteLabelRequest where
  LabelID : String

/-- The request body of `EditLabel`. -/
structure EditLabelRequest where
  LabelID : String
  Name : String
  Color : Int

/-- The request body of `AssociateChatLabel` and `DisassociateChatLabel`. -/
structure AssociateLabelRequest where
  ChatJID : String
  LabelID : String

/-- A handler's early return: respond with an error, caches untouched. -/
def respondError (s : Store) (status : Nat) (msg : String) (sent : List Patch) : Outcome :=
  ⟨s, ⟨status, .error msg⟩, sent⟩

/-- The loop of `ListLabels` (lines 122-129): the values of `getUserLabels`
whose `Active` flag is set. -/
def activeLabels (s : Store) (txtid : String) : List LabelInfo :=
  let labels := getUserLabels s txtid
  (labels.filter (fun kv => kv.2.Active)).map Prod.snd

/-- The handler `ListLabels`. -/
def ListLabels (env : Env) (s : Store) (txtid : String) : Response :=
  match env.GetMyClient txtid with
  | none => ⟨404, .error "client not found"⟩
  | some mycli =>
    if !mycli.IsConnected then ⟨400, .error "client not connected"⟩
    else
      let labelsList := activeLabels s txtid
      ⟨200, .labels labelsList labelsList.length "cache"⟩

/-- The label ID built by `CreateLabel`:
`fmt.Sprintf("label_%d_%s", now, strings.ReplaceAll(name, " ", "_"))`. -/
def newLabelID (now : Int) (name : String) : String :=
  "label_" ++ toString now ++ "_" ++ replaceSpaces name

/-- The handler `CreateLabel`. -/
def CreateLabel (env : Env) (s : Store) (txtid : String)
    (body : Option CreateLabelRequest) : Outcome :=
  match env.GetMyClient txtid with
  | none => respondError s 404 "client not found" []
  | some mycli =>
    match body with
    | none => respondError s 400 "invalid JSON" []
    | some req =>
      if req.Name = "" then respondError s 400 "name is required" []
      else
        let labelID := newLabelID env.now req.Name
        let patch := Patch.BuildLabelEdit labelID req.Name req.Color false
        match mycli.SendAppState patch with
        | some err => respondError s 500 ("failed to create label: " ++ err) [patch]
        | none =>
          let m := (s.labelsCache.get? txtid).getD []
          let m := m.set labelID { ID := labelID, Name := req.Name, Color := req.Color,
                                   PredefinedID := "", Deleted := false, Active := true }
          ⟨{ s with labelsCache := s.labelsCache.set txtid m },
           ⟨200, .created labelID req.Name req.Color
              "Label created successfully via WhatsApp AppState"⟩,
           [patch]⟩

/-- The handler `DeleteLabel`. -/
def DeleteLabel (env : Env) (s : Store) (txtid : String)
    (body : Option DeleteLabelRequest) : Outcome :=
  match env.GetMyClient txtid with
  | none => respondError s 404 "client not found" []
  | some mycli =>
    match body with
    | none => respondError s 400 "invalid JSON" []
    | some req =>
      if req.LabelID = "" then respondError s 400 "label_id is required" []
      else
        let cached := (s.labelsCache.get? txtid).bind (fun m => m.get? req.LabelID)
        let labelName := match cached with
          | some l => l.Name
          | none => ""
        let labelColor := match cached with
          | some l => l.Color
          | none => 0
        let patch := Patch.BuildLabelEdit req.LabelID labelName labelColor true
        match mycli.SendAppState patch with
        | some err => respondError s 500 ("failed to delete label: " ++ err) [patch]
        | none =>
          let s' : Store :=
            match s.labelsCache.get? txtid with
            | none => s
            | some m =>
              match m.get? req.LabelID with
              | none => s
              | some l =>
                let m := m.set req.LabelID { l with Active := false, Deleted := true }
                { s with labelsCache := s.labelsCache.set txtid m }
          ⟨s', ⟨200, .message "Label deleted successfully via WhatsApp AppState"⟩, [patch]⟩

/-- The handler `EditLabel`. -/
def EditLabel (env : Env) (s : Store) (txtid : String)
    (body : Option EditLabelRequest) : Outcome :=
  match env.GetMyClient txtid with
  | none => respondError s 404 "client not found" []
  | some mycli =>
    match body with
    | none => respondError s 400 "invalid JSON" []
    | some req =>
      if req.LabelID = "" ∨ req.Name = "" then
        respondError s 400 "label_id and name are required" []
      else
        let patch := Patch.BuildLabelEdit req.LabelID req.Name req.Color false
        match mycli.SendAppState patch with
        | some err => respondError s 500 ("failed to edit label: " ++ err) [patch]
        | none =>
          let s' : Store :=
            match (s.labelsCache.get? txtid).bind (fun m => m.get? req.LabelID) with
            | some l =>
              let m := (s.labelsCache.get? txtid).getD []
              let m := m.set req.LabelID { l with Name := req.Name, Color := req.Color }
              { s with labelsCache := s.labelsCache.set txtid m }
            | none =>
              let m := (s.labelsCache.get? txtid).getD []
              let m := m.set req.LabelID { ID := req.LabelID, Name := req.Name, Color := req.Color,
                                           PredefinedID := "", Deleted := false, Active := true }
              { s with labelsCache := s.labelsCache.set txtid m }
          ⟨s', ⟨200, .message "Label updated successfully via WhatsApp AppState"⟩, [patch]⟩

/-- The membership loop shared by the add paths: whether some entry has this
chat and this label. -/
def foundAssoc (xs : List ChatLabelAssociation) (chatJID labelID : String) : Bool :=
  xs.any (fun a => a.ChatJID == chatJID && a.LabelID == labelID)

/-- The handler `AssociateChatLabel`. -/
def AssociateChatLabel (env : Env) (s : Store) (txtid : String)
    (body : Option AssociateLabelRequest) : Outcome :=
  match env.GetMyClient txtid with
  | none => respondError s 404 "client not found" []
  | some mycli =>
    match body with
    | none => respondError s 400 "invalid JSON" []
    | some req =>
      if req.ChatJID = "" ∨ req.LabelID = "" then
        respondError s 400 "chat_jid and label_id are required" []
      else
        match env.parseJID req.ChatJID with
        | none => respondError s 400 "invalid chat JID" []
        | some chatJID =>
          let patch := Patch.BuildLabelChat chatJID req.LabelID true
          match mycli.SendAppState patch with
          | some err =>
            respondError s 500 ("failed to associate chat label: " ++ err) [patch]
          | none =>
            let xs := (s.chatLabelsCache.get? txtid).getD []
            let xs := if foundAssoc xs req.ChatJID req.LabelID then xs
                      else xs ++ [⟨req.ChatJID, req.LabelID⟩]
            ⟨{ s with chatLabelsCache := s.chatLabelsCache.set txtid xs },
             ⟨200, .message "Chat labeled successfully via WhatsApp AppState"⟩, [patch]⟩

/-- The handler `DisassociateChatLabel`. -/
def DisassociateChatLabel (env : Env) (s : Store) (txtid : String)
    (body : Option AssociateLabelRequest) : Outcome :=
  match env.GetMyClient txtid with
  | none => respondError s 404 "client not found" []
  | some mycli =>
    match body with
    | none => respondError s 400 "invalid JSON" []
    | some req =>
      if req.ChatJID = "" ∨ req.LabelID = "" then
        respondError s 400 "chat_jid and label_id are required" []
      else
        match env.parseJID req.ChatJID with
        | none => respondError s 400 "invalid chat JID" []
        | some chatJID =>
          let patch := Patch.BuildLabelChat chatJID req.LabelID false
          match mycli.SendAppState patch with
          | some err =>
            respondError s 500 ("failed to disassociate chat label: " ++ err) [patch]
          | none =>
            let s' : Store :=
              match s.chatLabelsCache.get? txtid with
              | none => s
              | some xs =>
                let newAssociations :=
                  xs.filter (fun a => !(a.ChatJID == req.ChatJID && a.LabelID == req.LabelID))
                { s with chatLabelsCache := s.chatLabelsCache.set txtid newAssociations }
            ⟨s', ⟨200, .message "Label removed from chat successfully via WhatsApp AppState"⟩,
             [patch]⟩

/-- The handler `CreateCommonLabels`; its response lists the six seeded labels
and is kept as its message. -/
def CreateCommonLabels (env : Env) (s : Store) (txtid : String) : Outcome :=
  match env.GetMyClient txtid with
  | none => respondError s 404 "client not found" []
  | some mycli =>
    if !mycli.IsConnected then respondError s 400 "client not connected" []
    else ⟨createCommonLabels s txtid, ⟨200, .message "Common labels created successfully"⟩, []⟩

/-! ## Event reconciler (`wmiau_labels.go`) -/

/-- The action of a typed association event (`LabelAssociationAction`). -/
structure LabelAssociationAction where
  Labeled : Option Bool
  deriving DecidableEq, Repr

/-- The action of a typed label-edit event (`LabelEditAction`); `Color` and
`PredefinedID` are `int32` pointers. -/
structure LabelEditAction where
  Name : Option String
  Color : Option Int
  PredefinedID : Option Int
  Deleted : Option Bool
  deriving DecidableEq, Repr

/-- The events `processLabelEvents` switches on.  An `AppState` event carries
its index path and the text `fmt.Sprintf("%+v", evt.SyncActionValue)`. -/
inductive Event where
  | AppState (Index : List String) (SyncActionValue : String)
  | LabelAssociationChat (JID : JID) (LabelID : String) (Action : Option LabelAssociationAction)
  | LabelEdit (LabelID : String) (Action : Option LabelEditAction)
  | other
  deriving DecidableEq, Repr

/-- The removal loop of the reconciler: delete the first entry with this chat
and this label, `append(xs[:i], xs[i+1:]...)` followed by `break`. -/
def removeFirstAssoc (xs : List ChatLabelAssociation) (chatJID labelID : String) :
    List ChatLabelAssociation :=
  xs.eraseP (fun a => a.ChatJID == chatJID && a.LabelID == labelID)

/-- The add-or-remove step both association paths of the reconciler perform on
the user's list. -/
def mergeAssoc (xs : List ChatLabelAssociation) (chatJID labelID : String) (isLabeled : Bool) :
    List ChatLabelAssociation :=
  if isLabeled then
    if foundAssoc xs chatJID labelID then xs else xs ++ [⟨chatJID, labelID⟩]
  else removeFirstAssoc xs chatJID labelID

/-- The guard `if labelsCache[userID] == nil` with its `make`. -/
def initLabels (s : Store) (userID : String) : Store :=
  match s.labelsCache.get? userID with
  | none => { s with labelsCache := s.labelsCache.set userID [] }
  | some _ => s

/-- The guard `if chatLabelsCache[userID] == nil` with its empty slice. -/
def initChatLabels (s : Store) (userID : String) : Store :=
  match s.chatLabelsCache.get? userID with
  | none => { s with chatLabelsCache := s.chatLabelsCache.set userID [] }
  | some _ => s

/-- The Go function `handleLabelAppStateEvent`. -/
def handleLabelAppStateEvent (s : Store) (userID : String) (Index : List String)
    (SyncActionValue : String) : Store :=
  let s := initLabels s userID
  let s := initChatLabels s userID
  match Index with
  | i0 :: labelID :: rest =>
    if i0 = "label_edit" then s
    else if i0 = "label_jid" then
      match rest with
      | chatJID :: _ =>
        let isLabeled := stringsContains SyncActionValue "labeled:true"
        let xs := (s.chatLabelsCache.get? userID).getD []
        { s with chatLabelsCache :=
            s.chatLabelsCache.set userID (mergeAssoc xs chatJID labelID isLabeled) }
      | [] => s
    else s
  | _ => s

/-- The record a typed label-edit event is turned into. -/
def labelInfoOfEdit (LabelID : String) (Action : Option LabelEditAction) : LabelInfo :=
  let labelInfo : LabelInfo :=
    { ID := LabelID, Name := "", Color := 0, PredefinedID := "", Deleted := false, Active := true }
  match Action with
  | none => labelInfo
  | some a =>
    let labelInfo := match a.Name with
      | some n => { labelInfo with Name := n }
      | none => labelInfo
    let labelInfo := match a.Color with
      | some c => { labelInfo with Color := c }
      | none => labelInfo
    let labelInfo := match a.PredefinedID with
      | some p => { labelInfo with PredefinedID := toString p }
      | none => labelInfo
    match a.Deleted with
    | some d => { labelInfo with Deleted := d, Active := !d }
    | none => labelInfo

/-- The result of `processLabelEvents`: the caches afterwards, the value stored
under `postmap["type"]`, and the returned `dowebhook`. -/
structure EventOutcome where
  store : Store
  postmapType : Option String
  dowebhook : Nat

/-- The Go method `processLabelEvents` of the client of user `userID`. -/
def processLabelEvents (s : Store) (userID : String) : Event → EventOutcome
  | .AppState Index SyncActionValue =>
    ⟨handleLabelAppStateEvent s userID Index SyncActionValue, some "AppState", 1⟩
  | .LabelAssociationChat jid LabelID Action =>
    let s := initChatLabels s userID
    let isLabeled := match Action with
      | some a => (match a.Labeled with
        | some b => b
        | none => false)
      | none => false
    let xs := (s.chatLabelsCache.get? userID).getD []
    ⟨{ s with chatLabelsCache :=
         s.chatLabelsCache.set userID (mergeAssoc xs jid.str LabelID isLabeled) },
     some "LabelAssociationChat", 1⟩
  | .LabelEdit LabelID Action =>
    let s := initLabels s userID
    let m := (s.labelsCache.get? userID).getD []
    ⟨{ s with labelsCache :=
         s.labelsCache.set userID (m.set LabelID (labelInfoOfEdit LabelID Action)) },
     some "LabelEdit", 1⟩
  | .other => ⟨s, none, 0⟩

/-! ## Reachable states -/

/-- A request to one of the five gateway handlers, with its decoded body. -/
inductive GatewayCall where
  | CreateLabel (body : Option CreateLabelRequest)
  | EditLabel (body : Option EditLabelRequest)
  | DeleteLabel (body : Option DeleteLabelRequest)
  | AssociateChatLabel (body : Option AssociateLabelRequest)
  | DisassociateChatLabel (body : Option AssociateLabelRequest)

/-- Route a gateway request of user `txtid` to its handler. -/
def GatewayCall.run (env : Env) (s : Store) (txtid : String) : GatewayCall → Outcome
  | .CreateLabel body => Wuzapi.CreateLabel env s txtid body
  | .EditLabel body => Wuzapi.EditLabel env s txtid body
  | .DeleteLabel body => Wuzapi.DeleteLabel env s txtid body
  | .AssociateChatLabel body => Wuzapi.AssociateChatLabel env s txtid body
  | .DisassociateChatLabel body => Wuzapi.DisassociateChatLabel env s txtid body

/-- One call into the cache: a gateway request, the seeding handler, or an
event delivered to the client of a user. -/
inductive Op where
  | gateway (env : Env) (txtid : String) (call : GatewayCall)
  | CreateCommonLabels (env : Env) (txtid : String)
  | event (userID : String) (evt : Event)

/-- The caches after one call. -/
def Op.run (s : Store) : Op → Store
  | .gateway env txtid call => (call.run env s txtid).store
  | .CreateCommonLabels env txtid => (Wuzapi.CreateCommonLabels env s txtid).store
  | .event userID evt => (processLabelEvents s userID evt).store

/-- The caches after a sequence of calls, oldest first. -/
def runOps (s : Store) (ops : List Op) : Store := ops.foldl Op.run s

/-- A store state is reachable when some sequence of calls leads to it from the
empty caches. -/
def Reachable (s : Store) : Prop := ∃ ops : List Op, runOps Store.empty ops = s

/-! ## Requests that fail local validation -/

/-- A gateway request with a required field empty (name for create; label ID or
name for edit; label ID for delete; chat or label ID for the two association
calls), or whose chat identifier the JID parser rejects. -/
def GatewayCall.failsValidation (parseJID : String → Option JID) : GatewayCall → Prop
  | .CreateLabel (some req) => req.Name = ""
  | .EditLabel (some req) => req.LabelID = "" ∨ req.Name = ""
  | .DeleteLabel (some req) => req.LabelID = ""
  | .AssociateChatLabel (some req) =>
    req.ChatJID = "" ∨ req.LabelID = "" ∨ parseJID req.ChatJID = none
  | .DisassociateChatLabel (some req) =>
    req.ChatJID = "" ∨ req.LabelID = "" ∨ parseJID req.ChatJID = none
  | _ => False

/-! ## Index paths the reconciler ignores -/

/-- An index path with fewer than 2 elements, or whose first element is neither
`label_edit` nor `label_jid`, or that begins with `label_edit`, or that begins
with `label_jid` and has exactly 2 elements. -/
def ignoredIndex (Index : List String) : Prop :=
  Index.length < 2 ∨
    (Index.head? ≠ some "label_edit" ∧ Index.head? ≠ some "label_jid") ∨
    Index.head? = some "label_edit" ∨
    (Index.head? = some "label_jid" ∧ Index.length = 2)

/-! ## Well-formed caches -/

/-- A label table is well formed when its keys are distinct, every record is
stored under its own `ID`, and every record has `Active` equal to `!Deleted`. -/
def LabelsWF (m : GoMap LabelInfo) : Prop :=
  m.keys.Nodup ∧ ∀ e ∈ m, e.2.ID = e.1 ∧ e.2.Active = !e.2.Deleted

/-- The caches are well formed when the user keys of both maps are distinct,
every label table is well formed, and no association list repeats a pair. -/
def Store.WF (s : Store) : Prop :=
  s.labelsCache.keys.Nodup ∧ (∀ kv ∈ s.labelsCache, LabelsWF kv.2) ∧
    s.chatLabelsCache.keys.Nodup ∧ (∀ kv ∈ s.chatLabelsCache, kv.2.Nodup)

/-! ## Sample environments and states -/

/-- A connected client whose remote send always succeeds. -/
def clientOk : MyClient := ⟨true, fun _ => none⟩

/-- A connected client whose remote send always fails with `"timeout"`. -/
def clientFailing : MyClient := ⟨true, fun _ => some "timeout"⟩

/-- A JID parser that accepts exactly the strings containing an `@`. -/
def sampleParseJID (arg : String) : Option JID :=
  if stringsContains arg "@" then some ⟨arg⟩ else none

/-- Every user has a client whose sends succeed; the clock reads 1700000000. -/
def envOk : Env := ⟨fun _ => some clientOk, sampleParseJID, 1700000000⟩

/-- Every user has a client whose sends fail. -/
def envFailing : Env := ⟨fun _ => some clientFailing, sampleParseJID, 1700000000⟩

/-- The caches after user `u1` created the label `Urgent` and tagged a chat. -/
def sampleStore : Store :=
  runOps Store.empty
    [ .gateway envOk "u1" (.CreateLabel (some ⟨"Urgent", 0⟩)),
      .gateway envOk "u1" (.AssociateChatLabel (some ⟨"123@c.us", "importante"⟩)) ]

/-- The sample caches after user `u1` deleted the label created there. -/
def sampleDeleted : Store :=
  (DeleteLabel envOk sampleStore "u1" (some ⟨"label_1700000000_Urgent"⟩)).store

/-- The caches after the client of `u1` received a label-edit event that
carries a predefined ID. -/
def sampleEdited : Store :=
  (processLabelEvents Store.empty "u1"
    (.LabelEdit "7" (some ⟨some "VIP", some 2, some 3, none⟩))).store

/-! ## Status text validation (`handlers_status.go`, `helpers_status.go`) -/

/-- The slice `validFonts` of `isValidFont`. -/
def validFonts : List Int := [0, 1, 2, 6, 7, 8, 9, 10]

/-- The Go method `isValidFont`, on an `int32`. -/
def isValidFont (font : Int) : Bool :=
  validFonts.any (fun validFont => font == validFont)

/-- The font gate of `StatusSendText` (lines 30-34): the early error response
when a font is supplied and `isValidFont` rejects it, `none` when the handler
goes on. -/
def StatusSendText_fontGate (Font : Option Int) : Option Response :=
  match Font with
  | some f =>
    if !isValidFont f then some ⟨400, .error "invalid font - must be between 0-10"⟩ else none
  | none => none

/-! ## Views used to state the claims -/

/-- The user on whose behalf a call runs. -/
def Op.user : Op → String
  | .gateway _ txtid _ => txtid
  | .CreateCommonLabels _ txtid => txtid
  | .event userID _ => userID

/-- A gateway request with a required field empty: name for create; label ID or
name for edit; label ID for delete; chat or label ID for the two association
calls. -/
def GatewayCall.emptyField : GatewayCall → Prop
  | .CreateLabel (some req) => req.Name = ""
  | .EditLabel (some req) => req.LabelID = "" ∨ req.Name = ""
  | .DeleteLabel (some req) => req.LabelID = ""
  | .AssociateChatLabel (some req) => req.ChatJID = "" ∨ req.LabelID = ""
  | .DisassociateChatLabel (some req) => req.ChatJID = "" ∨ req.LabelID = ""
  | _ => False

/-- The removal of the Association Store as the specification words it: delete
the first matching pair if present, no-op otherwise. -/
def removeSpec : List ChatLabelAssociation → String → String → List ChatLabelAssociation
  | [], _, _ => []
  | a :: rest, chatJID, labelID =>
    if a.ChatJID = chatJID ∧ a.LabelID = labelID then rest
    else a :: removeSpec rest chatJID labelID

/-- The association merge an event performs on the list of its user: the chat,
the label and the flag `isLabeled`, when the event is a typed association event
or a generic `label_jid` delta of at least 3 elements. -/
def Event.assocTarget : Event → Option (ChatLabelAssociation × Bool)
  | .LabelAssociationChat jid LabelID Action =>
    some (⟨jid.str, LabelID⟩, decide (Action = some ⟨some true⟩))
  | .AppState ("label_jid" :: labelID :: chatJID :: _) SyncActionValue =>
    some (⟨chatJID, labelID⟩, stringsContains SyncActionValue "labeled:true")
  | _ => none

/-- The record an event upserts in the label table of its user, when the event
is a typed label-edit event. -/
def Event.labelTarget : Event → Option LabelInfo
  | .LabelEdit LabelID Action => some (labelInfoOfEdit LabelID Action)
  | _ => none

/-- Two events conflict when both merge the same (chat, label) pair with
different flags, or both upsert the same label ID with different records. -/
def Event.conflicts (e₁ e₂ : Event) : Prop :=
  (∃ p b₁ b₂, e₁.assocTarget = some (p, b₁) ∧ e₂.assocTarget = some (p, b₂) ∧ b₁ ≠ b₂) ∨
    (∃ r₁ r₂, e₁.labelTarget = some r₁ ∧ e₂.labelTarget = some r₂ ∧ r₁.ID = r₂.ID ∧ r₁ ≠ r₂)

/-! ## More sample environments -/

/-- No user has a client. -/
def envAbsent : Env := ⟨fun _ => none, sampleParseJID, 1700000000⟩

/-- A client that reports not connected and whose remote send succeeds. -/
def clientDisconnected : MyClient := ⟨false, fun _ => none⟩

/-- Every user has the disconnected client. -/
def envDisconnected : Env := ⟨fun _ => some clientDisconnected, sampleParseJID, 1700000000⟩

/-- A client that reports not connected and whose remote send fails. -/
def clientDisconnectedFailing : MyClient := ⟨false, fun _ => some "not connected"⟩

/-- Every user has the disconnected client whose sends fail. -/
def envDisconnectedFailing : Env :=
  ⟨fun _ => some clientDisconnectedFailing, sampleParseJID, 1700000000⟩

/-- Two store states agree off user `u` when every other user has the same
label table and the same association list in both. -/
def Store.agreeOff (s t : Store) (u : String) : Prop :=
  ∀ v, v ≠ u →
    t.labelsCache.get? v = s.labelsCache.get? v ∧
      t.chatLabelsCache.get? v = s.chatLabelsCache.get? v

/-- The number a string of decimal digits denotes, most significant digit
first. -/
def digitsValue (ds : List Char) : Nat :=
  ds.foldl (fun acc c => 10 * acc + (c.toNat - 48)) 0

/-- The ten decimal digits. -/
def decimalDigits : List Char := ['0', '1', '2', '3', '4', '5', '6', '7', '8', '9']

/-! ## Lemmas on Go maps -/

namespace GoMap

variable {V : Type}

theorem get?_set_self (m : GoMap V) (k : String) (v : V) : (m.set k v).get? k = some v := by
  induction m with
  | nil => simp [set, get?]
  | cons kv rest ih =>
    obtain ⟨k', v'⟩ := kv
    by_cases h : k' = k
    · simp [set, get?, h]
    · simp [set, get?, h, ih]

theorem get?_set_ne (m : GoMap V) {k k' : String} (v : V) (h : k' ≠ k) :
    (m.set k v).get? k' = m.get? k' := by
  induction m with
  | nil => simp [set, get?, Ne.symm h]
  | cons kv rest ih =>
    obtain ⟨k₀, v₀⟩ := kv
    by_cases h₀ : k₀ = k
    · subst h₀
      simp [set, get?, Ne.symm h]
    · by_cases h₁ : k₀ = k'
      · subst h₁
        simp [set, get?, h₀]
      · simp [set, get?, h₀, h₁, ih]

theorem set_set (m : GoMap V) (k : String) (v w : V) : (m.set k v).set k w = m.set k w := by
  induction m with
  | nil => simp [set]
  | cons kv rest ih =>
    obtain ⟨k', v'⟩ := kv
    by_cases h : k' = k
    · simp [set, h]
    · simp [set, h, ih]

theorem set_of_get? (m : GoMap V) {k : String} {v : V} (h : m.get? k = some v) :
    m.set k v = m := by
  induction m with
  | nil => simp [get?] at h
  | cons kv rest ih =>
    obtain ⟨k', v'⟩ := kv
    by_cases hk : k' = k
    · simp [get?, hk] at h
      simp [set, hk, h]
    · simp [get?, hk] at h
      simp [set, hk, ih h]

theorem mem_of_get? (m : GoMap V) {k : String} {v : V} (h : m.get? k = some v) :
    (k, v) ∈ m := by
  induction m with
  | nil => simp [get?] at h
  | cons kv rest ih =>
    obtain ⟨k', v'⟩ := kv
    by_cases hk : k' = k
    · simp [get?, hk] at h
      simp [hk, h]
    · simp [get?, hk] at h
      exact List.mem_cons_of_mem _ (ih h)

theorem mem_set_self (m : GoMap V) (k : String) (v : V) : (k, v) ∈ m.set k v :=
  mem_of_get? _ (get?_set_self m k v)

theorem mem_set (m : GoMap V) (k : String) (v : V) {kv : String × V} (h : kv ∈ m.set k v) :
    kv = (k, v) ∨ kv ∈ m := by
  induction m with
  | nil => simpa [set] using h
  | cons kv' rest ih =>
    obtain ⟨k', v'⟩ := kv'
    by_cases hk : k' = k
    · simp [set, hk] at h
      rcases h with h | h
      · exact Or.inl h
      · exact Or.inr (List.mem_cons_of_mem _ h)
    · simp [set, hk] at h
      rcases h with h | h
      · exact Or.inr (by simp [h])
      · rcases ih h with h' | h'
        · exact Or.inl h'
        · exact Or.inr (List.mem_cons_of_mem _ h')

theorem get?_eq_none_iff (m : GoMap V) (k : String) : m.get? k = none ↔ k ∉ m.keys := by
  induction m with
  | nil => simp [get?, keys]
  | cons kv rest ih =>
    obtain ⟨k', v'⟩ := kv
    by_cases hk : k' = k
    · simp [get?, keys, hk]
    · simp only [get?, hk, if_false, ih]
      simp [keys, Ne.symm hk]

theorem keys_set_of_mem (m : GoMap V) {k : String} (v : V) (h : k ∈ m.keys) :
    (m.set k v).keys = m.keys := by
  induction m with
  | nil => simp [keys] at h
  | cons kv rest ih =>
    obtain ⟨k', v'⟩ := kv
    by_cases hk : k' = k
    · simp [set, keys, hk]
    · have h' : k ∈ keys rest := by
        simpa [keys, Ne.symm hk] using h
      have := ih h'
      simp only [keys] at this
      simp [set, keys, hk, this]

theorem keys_set_of_not_mem (m : GoMap V) {k : String} (v : V) (h : k ∉ m.keys) :
    (m.set k v).keys = m.keys ++ [k] := by
  induction m with
  | nil => simp [set, keys]
  | cons kv rest ih =>
    obtain ⟨k', v'⟩ := kv
    have hk : k' ≠ k := by
      intro e
      exact h (by simp [keys, e])
    have h' : k ∉ keys rest := by
      intro e
      exact h (by simp only [keys] at e; simp [keys, e])
    have := ih h'
    simp only [keys] at this
    simp [set, keys, hk, this]

theorem nodup_keys_set (m : GoMap V) (k : String) (v : V) (h : m.keys.Nodup) :
    (m.set k v).keys.Nodup := by
  by_cases hk : k ∈ m.keys
  · rw [keys_set_of_mem m v hk]
    exact h
  · rw [keys_set_of_not_mem m v hk]
    exact List.Nodup.append h (List.nodup_singleton k) (by simpa using hk)

end GoMap

/-! ## Remote failures and validation failures leave the caches alone -/

/-- C1: for each of the five gateway operations, when a patch handed to
`SendAppState` comes back with an error, the operation answers with an error
(status 500) and both caches are exactly what they were before the call. -/
theorem remote_send_error_keeps_store (env : Env) (s : Store) (txtid : String)
    (call : GatewayCall) (mycli : MyClient) (p : Patch) (e : String)
    (hcli : env.GetMyClient txtid = some mycli)
    (hsent : p ∈ (call.run env s txtid).sent)
    (herr : mycli.SendAppState p = some e) :
    (call.run env s txtid).resp.isError = true ∧
      (call.run env s txtid).resp.status = 500 ∧
      (call.run env s txtid).store = s := by
  cases call with
  | CreateLabel body =>
    simp only [GatewayCall.run, CreateLabel, hcli] at hsent ⊢
    cases body with
    | none => simp [respondError] at hsent
    | some req =>
      by_cases hn : req.Name = ""
      · simp [hn, respondError] at hsent
      · simp only [hn, if_false] at hsent ⊢
        cases hs : mycli.SendAppState
            (Patch.BuildLabelEdit (newLabelID env.now req.Name) req.Name req.Color false) with
        | some err => simp [respondError, Response.isError]
        | none =>
          simp only [hs, List.mem_singleton] at hsent
          rw [hsent, hs] at herr
          cases herr
  | EditLabel body =>
    simp only [GatewayCall.run, EditLabel, hcli] at hsent ⊢
    cases body with
    | none => simp [respondError] at hsent
    | some req =>
      by_cases hn : req.LabelID = "" ∨ req.Name = ""
      · simp [hn, respondError] at hsent
      · simp only [hn, if_false] at hsent ⊢
        cases hs : mycli.SendAppState
            (Patch.BuildLabelEdit req.LabelID req.Name req.Color false) with
        | some err => simp [respondError, Response.isError]
        | none =>
          simp only [hs, List.mem_singleton] at hsent
          rw [hsent, hs] at herr
          cases herr
  | DeleteLabel body =>
    simp only [GatewayCall.run, DeleteLabel, hcli] at hsent ⊢
    cases body with
    | none => simp [respondError] at hsent
    | some req =>
      by_cases hn : req.LabelID = ""
      · simp [hn, respondError] at hsent
      · simp only [hn, if_false] at hsent ⊢
        generalize hp : Patch.BuildLabelEdit req.LabelID _ _ true = patch at hsent ⊢
        cases hs : mycli.SendAppState patch with
        | some err => simp [respondError, Response.isError]
        | none =>
          simp only [hs, List.mem_singleton] at hsent
          rw [hsent, hs] at herr
          cases herr
  | AssociateChatLabel body =>
    simp only [GatewayCall.run, AssociateChatLabel, hcli] at hsent ⊢
    cases body with
    | none => simp [respondError] at hsent
    | some req =>
      by_cases hn : req.ChatJID = "" ∨ req.LabelID = ""
      · simp [hn, respondError] at hsent
      · simp only [hn, if_false] at hsent ⊢
        cases hj : env.parseJID req.ChatJID with
        | none => simp [hj, respondError] at hsent
        | some chatJID =>
          simp only [hj] at hsent ⊢
          cases hs : mycli.SendAppState (Patch.BuildLabelChat chatJID req.LabelID true) with
          | some err => simp [respondError, Response.isError]
          | none =>
            simp only [hs, List.mem_singleton] at hsent
            rw [hsent, hs] at herr
            cases herr
  | DisassociateChatLabel body =>
    simp only [GatewayCall.run, DisassociateChatLabel, hcli] at hsent ⊢
    cases body with
    | none => simp [respondError] at hsent
    | some req =>
      by_cases hn : req.ChatJID = "" ∨ req.LabelID = ""
      · simp [hn, respondError] at hsent
      · simp only [hn, if_false] at hsent ⊢
        cases hj : env.parseJID req.ChatJID with
        | none => simp [hj, respondError] at hsent
        | some chatJID =>
          simp only [hj] at hsent ⊢
          cases hs : mycli.SendAppState (Patch.BuildLabelChat chatJID req.LabelID false) with
          | some err => simp [respondError, Response.isError]
          | none =>
            simp only [hs, List.mem_singleton] at hsent
            rw [hsent, hs] at herr
            cases herr

/-- C1, at a concrete call: a failing `CreateLabel` on the sample caches. -/
theorem remote_send_error_keeps_store_witness :
    ((GatewayCall.CreateLabel (some ⟨"Urgent", 0⟩)).run envFailing sampleStore "u1").resp.isError
        = true ∧
      ((GatewayCall.CreateLabel (some ⟨"Urgent", 0⟩)).run envFailing sampleStore "u1").resp.status
        = 500 ∧
      ((GatewayCall.CreateLabel (some ⟨"Urgent", 0⟩)).run envFailing sampleStore "u1").store
        = sampleStore :=
  remote_send_error_keeps_store envFailing sampleStore "u1" (.CreateLabel (some ⟨"Urgent", 0⟩))
    clientFailing (Patch.BuildLabelEdit (newLabelID 1700000000 "Urgent") "Urgent" 0 false)
    "timeout" rfl (by decide) rfl

/-! ## Every reachable state is well formed -/

theorem labelsWF_nil : LabelsWF [] := by
  simp [LabelsWF, GoMap.keys]

theorem labelsWF_set {m : GoMap LabelInfo} (h : LabelsWF m) (k : String) (v : LabelInfo)
    (hid : v.ID = k) (hact : v.Active = !v.Deleted) : LabelsWF (m.set k v) := by
  refine ⟨GoMap.nodup_keys_set m k v h.1, ?_⟩
  intro e he
  rcases GoMap.mem_set m k v he with rfl | he'
  · exact ⟨hid, hact⟩
  · exact h.2 e he'

theorem labelsWF_getD {s : Store} (h : s.WF) (u : String) :
    LabelsWF ((s.labelsCache.get? u).getD []) := by
  cases hg : s.labelsCache.get? u with
  | none => simpa using labelsWF_nil
  | some m => simpa using h.2.1 (u, m) (GoMap.mem_of_get? _ hg)

theorem nodup_getD {s : Store} (h : s.WF) (u : String) :
    ((s.chatLabelsCache.get? u).getD []).Nodup := by
  cases hg : s.chatLabelsCache.get? u with
  | none => simp
  | some xs => simpa using h.2.2.2 (u, xs) (GoMap.mem_of_get? _ hg)

theorem labelsWF_labelsOf {s : Store} (h : s.WF) (u : String) : LabelsWF (s.labelsOf u) :=
  labelsWF_getD h u

theorem nodup_assocsOf {s : Store} (h : s.WF) (u : String) : (s.assocsOf u).Nodup :=
  nodup_getD h u

theorem wf_setLabels {s : Store} (h : s.WF) (u : String) {m : GoMap LabelInfo}
    (hm : LabelsWF m) : Store.WF { s with labelsCache := s.labelsCache.set u m } := by
  refine ⟨GoMap.nodup_keys_set _ u m h.1, ?_, h.2.2.1, h.2.2.2⟩
  intro kv hkv
  rcases GoMap.mem_set _ u m hkv with rfl | hkv'
  · exact hm
  · exact h.2.1 kv hkv'

theorem wf_setAssocs {s : Store} (h : s.WF) (u : String) {xs : List ChatLabelAssociation}
    (hx : xs.Nodup) : Store.WF { s with chatLabelsCache := s.chatLabelsCache.set u xs } := by
  refine ⟨h.1, h.2.1, GoMap.nodup_keys_set _ u xs h.2.2.1, ?_⟩
  intro kv hkv
  rcases GoMap.mem_set _ u xs hkv with rfl | hkv'
  · exact hx
  · exact h.2.2.2 kv hkv'

theorem foundAssoc_iff (xs : List ChatLabelAssociation) (c l : String) :
    foundAssoc xs c l = true ↔ (⟨c, l⟩ : ChatLabelAssociation) ∈ xs := by
  simp only [foundAssoc, List.any_eq_true, Bool.and_eq_true, beq_iff_eq]
  constructor
  · rintro ⟨a, ha, h1, h2⟩
    obtain ⟨c', l'⟩ := a
    simp only at h1 h2
    subst h1 h2
    exact ha
  · intro h
    exact ⟨_, h, rfl, rfl⟩

theorem removeFirstAssoc_eq_erase (xs : List ChatLabelAssociation) (c l : String) :
    removeFirstAssoc xs c l = xs.erase ⟨c, l⟩ := by
  rw [removeFirstAssoc, List.erase_eq_eraseP]
  congr 1
  funext a
  obtain ⟨c', l'⟩ := a
  by_cases h : (⟨c, l⟩ : ChatLabelAssociation) = ⟨c', l'⟩
  · have h' := h
    simp only [ChatLabelAssociation.mk.injEq] at h'
    simp [h'.1, h'.2]
  · have hb : ((⟨c, l⟩ : ChatLabelAssociation) == ⟨c', l'⟩) = false := by
      simpa using h
    rw [hb]
    simp only [ChatLabelAssociation.mk.injEq, not_and] at h
    by_cases h1 : c' = c
    · have h2 : ¬ l' = l := fun e => h h1.symm e.symm
      simp [h1, h2]
    · simp [h1]

theorem nodup_mergeAssoc {xs : List ChatLabelAssociation} (h : xs.Nodup) (c l : String)
    (b : Bool) : (mergeAssoc xs c l b).Nodup := by
  unfold mergeAssoc
  cases b with
  | true =>
    by_cases hf : foundAssoc xs c l = true
    · simpa [hf] using h
    · have hn : (⟨c, l⟩ : ChatLabelAssociation) ∉ xs := by
        rwa [← foundAssoc_iff]
      simp only [hf, if_true, if_false]
      exact List.Nodup.append h (List.nodup_singleton _) (by simpa using hn)
  | false =>
    simp only [Bool.false_eq_true, if_false, removeFirstAssoc_eq_erase]
    exact h.erase _

theorem wf_initLabels {s : Store} (h : s.WF) (u : String) : (initLabels s u).WF := by
  unfold initLabels
  cases hg : s.labelsCache.get? u with
  | none => exact wf_setLabels h u labelsWF_nil
  | some m => exact h

theorem wf_initChatLabels {s : Store} (h : s.WF) (u : String) : (initChatLabels s u).WF := by
  unfold initChatLabels
  cases hg : s.chatLabelsCache.get? u with
  | none => exact wf_setAssocs h u List.nodup_nil
  | some m => exact h

theorem wf_empty : Store.empty.WF := by
  simp [Store.WF, Store.empty, GoMap.keys]

theorem wf_CreateLabel {s : Store} (h : s.WF) (env : Env) (txtid : String)
    (body : Option CreateLabelRequest) : (CreateLabel env s txtid body).store.WF := by
  unfold CreateLabel
  cases env.GetMyClient txtid with
  | none => exact h
  | some mycli =>
    cases body with
    | none => exact h
    | some req =>
      by_cases hn : req.Name = ""
      · simpa [hn, respondError] using h
      · simp only [hn, if_false]
        cases mycli.SendAppState _ with
        | some err => exact h
        | none => exact wf_setLabels h txtid (labelsWF_set (labelsWF_getD h txtid) _ _ rfl rfl)

theorem wf_DeleteLabel {s : Store} (h : s.WF) (env : Env) (txtid : String)
    (body : Option DeleteLabelRequest) : (DeleteLabel env s txtid body).store.WF := by
  unfold DeleteLabel
  cases env.GetMyClient txtid with
  | none => exact h
  | some mycli =>
    cases body with
    | none => exact h
    | some req =>
      by_cases hn : req.LabelID = ""
      · simpa [hn, respondError] using h
      · simp only [hn, if_false]
        cases mycli.SendAppState _ with
        | some err => exact h
        | none =>
          simp only
          cases hg : s.labelsCache.get? txtid with
          | none => exact h
          | some m =>
            simp only
            cases hl : m.get? req.LabelID with
            | none => exact h
            | some l =>
              have hm : LabelsWF m := h.2.1 (txtid, m) (GoMap.mem_of_get? _ hg)
              have hid := (hm.2 _ (GoMap.mem_of_get? _ hl)).1
              exact wf_setLabels h txtid (labelsWF_set hm _ _ hid rfl)

theorem wf_EditLabel {s : Store} (h : s.WF) (env : Env) (txtid : String)
    (body : Option EditLabelRequest) : (EditLabel env s txtid body).store.WF := by
  unfold EditLabel
  cases env.GetMyClient txtid with
  | none => exact h
  | some mycli =>
    cases body with
    | none => exact h
    | some req =>
      by_cases hn : req.LabelID = "" ∨ req.Name = ""
      · simpa [hn, respondError] using h
      · simp only [hn, if_false]
        cases mycli.SendAppState _ with
        | some err => exact h
        | none =>
          simp only
          cases hg : s.labelsCache.get? txtid with
          | none =>
            simp only [Option.bind, Option.getD]
            exact wf_setLabels h txtid (labelsWF_set labelsWF_nil _ _ rfl rfl)
          | some m =>
            have hm : LabelsWF m := h.2.1 (txtid, m) (GoMap.mem_of_get? _ hg)
            simp only [Option.bind, Option.getD]
            cases hl : m.get? req.LabelID with
            | none => exact wf_setLabels h txtid (labelsWF_set hm _ _ rfl rfl)
            | some l =>
              have hl' := hm.2 _ (GoMap.mem_of_get? _ hl)
              exact wf_setLabels h txtid (labelsWF_set hm _ _ hl'.1 hl'.2)

theorem wf_AssociateChatLabel {s : Store} (h : s.WF) (env : Env) (txtid : String)
    (body : Option AssociateLabelRequest) : (AssociateChatLabel env s txtid body).store.WF := by
  unfold AssociateChatLabel
  cases env.GetMyClient txtid with
  | none => exact h
  | some mycli =>
    cases body with
    | none => exact h
    | some req =>
      by_cases hn : req.ChatJID = "" ∨ req.LabelID = ""
      · simpa [hn, respondError] using h
      · simp only [hn, if_false]
        cases env.parseJID req.ChatJID with
        | none => exact h
        | some chatJID =>
          simp only
          cases mycli.SendAppState _ with
          | some err => exact h
          | none =>
            exact wf_setAssocs h txtid
              (nodup_mergeAssoc (nodup_getD h txtid) req.ChatJID req.LabelID true)

theorem wf_DisassociateChatLabel {s : Store} (h : s.WF) (env : Env) (txtid : String)
    (body : Option AssociateLabelRequest) :
    (DisassociateChatLabel env s txtid body).store.WF := by
  unfold DisassociateChatLabel
  cases env.GetMyClient txtid with
  | none => exact h
  | some mycli =>
    cases body with
    | none => exact h
    | some req =>
      by_cases hn : req.ChatJID = "" ∨ req.LabelID = ""
      · simpa [hn, respondError] using h
      · simp only [hn, if_false]
        cases env.parseJID req.ChatJID with
        | none => exact h
        | some chatJID =>
          simp only
          cases mycli.SendAppState _ with
          | some err => exact h
          | none =>
            simp only
            cases hg : s.chatLabelsCache.get? txtid with
            | none => exact h
            | some xs =>
              have hx : xs.Nodup := h.2.2.2 (txtid, xs) (GoMap.mem_of_get? _ hg)
              exact wf_setAssocs h txtid (hx.filter _)

theorem labelsWF_seed (l : List (String × LabelInfo)) (hl : ∀ kv ∈ l, kv.2.ID = kv.1 ∧
    kv.2.Active = true) {m : GoMap LabelInfo} (hm : LabelsWF m) :
    LabelsWF (l.foldl
      (fun m kv =>
        match m.get? kv.1 with
        | none => m.set kv.1 { ID := kv.2.ID, Name := kv.2.Name, Color := kv.2.Color,
                               PredefinedID := "", Deleted := false, Active := kv.2.Active }
        | some _ => m) m) := by
  induction l generalizing m with
  | nil => exact hm
  | cons kv rest ih =>
    simp only [List.foldl_cons]
    apply ih (fun kv' h' => hl kv' (List.mem_cons_of_mem _ h'))
    cases m.get? kv.1 with
    | none =>
      have := hl kv (List.mem_cons_self _ _)
      exact labelsWF_set hm _ _ this.1 (by simp [this.2])
    | some _ => exact hm

theorem wf_createCommonLabels {s : Store} (h : s.WF) (u : String) :
    (createCommonLabels s u).WF := by
  unfold createCommonLabels
  exact wf_setLabels h u (labelsWF_seed commonLabels (by decide) (labelsWF_getD h u))

theorem wf_CreateCommonLabels {s : Store} (h : s.WF) (env : Env) (txtid : String) :
    (CreateCommonLabels env s txtid).store.WF := by
  unfold CreateCommonLabels
  cases env.GetMyClient txtid with
  | none => exact h
  | some mycli =>
    cases hc : mycli.IsConnected with
    | false => simpa [hc, respondError] using h
    | true => simpa [hc] using wf_createCommonLabels h txtid

theorem labelInfoOfEdit_ID (i : String) (a : Option LabelEditAction) :
    (labelInfoOfEdit i a).ID = i := by
  unfold labelInfoOfEdit
  cases a with
  | none => rfl
  | some a =>
    obtain ⟨n, c, p, d⟩ := a
    cases n <;> cases c <;> cases p <;> cases d <;> rfl

theorem labelInfoOfEdit_Active (i : String) (a : Option LabelEditAction) :
    (labelInfoOfEdit i a).Active = !(labelInfoOfEdit i a).Deleted := by
  unfold labelInfoOfEdit
  cases a with
  | none => rfl
  | some a =>
    obtain ⟨n, c, p, d⟩ := a
    cases n <;> cases c <;> cases p <;> cases d <;> rfl

theorem wf_handleLabelAppStateEvent {s : Store} (h : s.WF) (u : String) (Index : List String)
    (v : String) : (handleLabelAppStateEvent s u Index v).WF := by
  have h2 := wf_initChatLabels (wf_initLabels h u) u
  unfold handleLabelAppStateEvent
  simp only
  split
  · split
    · exact h2
    · split
      · split
        · exact wf_setAssocs h2 u (nodup_mergeAssoc (nodup_getD h2 u) _ _ _)
        · exact h2
      · exact h2
  · exact h2

theorem wf_processLabelEvents {s : Store} (h : s.WF) (u : String) (evt : Event) :
    (processLabelEvents s u evt).store.WF := by
  cases evt with
  | AppState Index v => exact wf_handleLabelAppStateEvent h u Index v
  | LabelAssociationChat jid l a =>
    have h1 := wf_initChatLabels h u
    exact wf_setAssocs h1 u (nodup_mergeAssoc (nodup_getD h1 u) _ _ _)
  | LabelEdit l a =>
    have h1 := wf_initLabels h u
    exact wf_setLabels h1 u (labelsWF_set (labelsWF_getD h1 u) _ _
      (labelInfoOfEdit_ID l a) (labelInfoOfEdit_Active l a))
  | other => exact h

theorem wf_run {s : Store} (h : s.WF) (op : Op) : (op.run s).WF := by
  cases op with
  | gateway env txtid call =>
    cases call with
    | CreateLabel body => exact wf_CreateLabel h env txtid body
    | EditLabel body => exact wf_EditLabel h env txtid body
    | DeleteLabel body => exact wf_DeleteLabel h env txtid body
    | AssociateChatLabel body => exact wf_AssociateChatLabel h env txtid body
    | DisassociateChatLabel body => exact wf_DisassociateChatLabel h env txtid body
  | CreateCommonLabels env txtid => exact wf_CreateCommonLabels h env txtid
  | event u evt => exact wf_processLabelEvents h u evt

theorem wf_runOps {s : Store} (h : s.WF) (ops : List Op) : (runOps s ops).WF := by
  induction ops generalizing s with
  | nil => exact h
  | cons op rest ih => exact ih (wf_run h op)

theorem wf_of_reachable {s : Store} (h : Reachable s) : s.WF := by
  obtain ⟨ops, rfl⟩ := h
  exact wf_runOps wf_empty ops

/-! ## What the reconciler does to the caches -/

theorem initChatLabels_set (s : Store) (u : String) (xs : List ChatLabelAssociation) :
    (initChatLabels s u).chatLabelsCache.set u xs = s.chatLabelsCache.set u xs := by
  unfold initChatLabels
  cases s.chatLabelsCache.get? u with
  | none => simp [GoMap.set_set]
  | some _ => rfl

theorem initChatLabels_getD (s : Store) (u : String) :
    ((initChatLabels s u).chatLabelsCache.get? u).getD [] = s.assocsOf u := by
  unfold initChatLabels Store.assocsOf
  cases h : s.chatLabelsCache.get? u with
  | none => simp [GoMap.get?_set_self]
  | some _ => simp [h]

theorem initChatLabels_labelsCache (s : Store) (u : String) :
    (initChatLabels s u).labelsCache = s.labelsCache := by
  unfold initChatLabels
  cases s.chatLabelsCache.get? u <;> rfl

theorem initLabels_set (s : Store) (u : String) (m : GoMap LabelInfo) :
    (initLabels s u).labelsCache.set u m = s.labelsCache.set u m := by
  unfold initLabels
  cases s.labelsCache.get? u with
  | none => simp [GoMap.set_set]
  | some _ => rfl

theorem initLabels_getD (s : Store) (u : String) :
    ((initLabels s u).labelsCache.get? u).getD [] = s.labelsOf u := by
  unfold initLabels Store.labelsOf
  cases h : s.labelsCache.get? u with
  | none => simp [GoMap.get?_set_self]
  | some _ => simp [h]

theorem initLabels_chatLabelsCache (s : Store) (u : String) :
    (initLabels s u).chatLabelsCache = s.chatLabelsCache := by
  unfold initLabels
  cases s.labelsCache.get? u <;> rfl

theorem initLabels_of_some {s : Store} {u : String} {m : GoMap LabelInfo}
    (h : s.labelsCache.get? u = some m) : initLabels s u = s := by
  simp [initLabels, h]

theorem initChatLabels_of_some {s : Store} {u : String} {xs : List ChatLabelAssociation}
    (h : s.chatLabelsCache.get? u = some xs) : initChatLabels s u = s := by
  simp [initChatLabels, h]

theorem initLabels_get?_isSome (s : Store) (u : String) :
    ∃ m, (initLabels s u).labelsCache.get? u = some m := by
  unfold initLabels
  cases h : s.labelsCache.get? u with
  | none => exact ⟨[], by simp [GoMap.get?_set_self]⟩
  | some m => exact ⟨m, h⟩

theorem initChatLabels_get?_isSome (s : Store) (u : String) :
    ∃ xs, (initChatLabels s u).chatLabelsCache.get? u = some xs := by
  unfold initChatLabels
  cases h : s.chatLabelsCache.get? u with
  | none => exact ⟨[], by simp [GoMap.get?_set_self]⟩
  | some xs => exact ⟨xs, h⟩

/-- The flag `isLabeled` a typed association event computes from its action. -/
theorem isLabeled_eq (a : Option LabelAssociationAction) :
    (match a with
      | some a => (match a.Labeled with
        | some b => b
        | none => false)
      | none => false) = decide (a = some ⟨some true⟩) := by
  cases a with
  | none => rfl
  | some a =>
    obtain ⟨lb⟩ := a
    cases lb with
    | none => rfl
    | some b => cases b <;> rfl

/-- The caches after a typed association event: only the user's list changes,
by `mergeAssoc`. -/
theorem processLabelEvents_assoc (s : Store) (u : String) (jid : JID) (l : String)
    (a : Option LabelAssociationAction) :
    (processLabelEvents s u (.LabelAssociationChat jid l a)).store =
      s.setAssocs u (mergeAssoc (s.assocsOf u) jid.str l (decide (a = some ⟨some true⟩))) := by
  simp only [processLabelEvents, Store.setAssocs, isLabeled_eq, initChatLabels_set, initChatLabels_getD,
    initChatLabels_labelsCache]

/-- The caches after a typed label-edit event: only the user's table changes,
by one assignment. -/
theorem processLabelEvents_edit (s : Store) (u : String) (i : String)
    (a : Option LabelEditAction) :
    (processLabelEvents s u (.LabelEdit i a)).store =
      s.setLabels u ((s.labelsOf u).set i (labelInfoOfEdit i a)) := by
  simp only [processLabelEvents, Store.setLabels, initLabels_set, initLabels_getD, initLabels_chatLabelsCache]

theorem assocsOf_set (s : Store) (u : String) (xs : List ChatLabelAssociation) :
    (s.setAssocs u xs).assocsOf u = xs := by
  simp [Store.assocsOf, Store.setAssocs, GoMap.get?_set_self]

theorem labelsOf_set (s : Store) (u : String) (m : GoMap LabelInfo) :
    (s.setLabels u m).labelsOf u = m := by
  simp [Store.labelsOf, Store.setLabels, GoMap.get?_set_self]

theorem mergeAssoc_idem {xs : List ChatLabelAssociation} (h : xs.Nodup) (c l : String)
    (b : Bool) : mergeAssoc (mergeAssoc xs c l b) c l b = mergeAssoc xs c l b := by
  cases b with
  | true =>
    by_cases hf : foundAssoc xs c l = true
    · simp [mergeAssoc, hf]
    · have hf' : foundAssoc (xs ++ [⟨c, l⟩]) c l = true := by
        rw [foundAssoc_iff]
        simp
      simp [mergeAssoc, hf, hf']
  | false =>
    simp only [mergeAssoc, Bool.false_eq_true, if_false, removeFirstAssoc_eq_erase]
    exact List.erase_of_not_mem (h.not_mem_erase)

theorem setAssocs_setAssocs (s : Store) (u : String) (xs ys : List ChatLabelAssociation) :
    (s.setAssocs u xs).setAssocs u ys = s.setAssocs u ys := by
  simp [Store.setAssocs, GoMap.set_set]

theorem setLabels_setLabels (s : Store) (u : String) (m m' : GoMap LabelInfo) :
    (s.setLabels u m).setLabels u m' = s.setLabels u m' := by
  simp [Store.setLabels, GoMap.set_set]

theorem initLabels_setAssocs_init (s : Store) (u : String) (xs : List ChatLabelAssociation) :
    initLabels ((initChatLabels (initLabels s u) u).setAssocs u xs) u =
      (initChatLabels (initLabels s u) u).setAssocs u xs := by
  obtain ⟨m, hm⟩ := initLabels_get?_isSome s u
  apply initLabels_of_some (m := m)
  simpa [Store.setAssocs, initChatLabels_labelsCache] using hm

theorem initChatLabels_setAssocs (s : Store) (u : String) (xs : List ChatLabelAssociation) :
    initChatLabels (s.setAssocs u xs) u = s.setAssocs u xs := by
  have hx : (s.setAssocs u xs).chatLabelsCache.get? u = some xs := by
    simp [Store.setAssocs, GoMap.get?_set_self]
  exact initChatLabels_of_some hx

theorem initLabels_init (s : Store) (u : String) :
    initLabels (initChatLabels (initLabels s u) u) u = initChatLabels (initLabels s u) u := by
  obtain ⟨m, hm⟩ := initLabels_get?_isSome s u
  apply initLabels_of_some (m := m)
  simpa [initChatLabels_labelsCache] using hm

theorem initChatLabels_init (s : Store) (u : String) :
    initChatLabels (initChatLabels s u) u = initChatLabels s u := by
  obtain ⟨xs, hx⟩ := initChatLabels_get?_isSome s u
  exact initChatLabels_of_some hx

/-- Replaying a generic `AppState` delta changes nothing the first delivery
did not already do. -/
theorem handleLabelAppStateEvent_idem {s : Store} (h : s.WF) (u : String)
    (Index : List String) (v : String) :
    handleLabelAppStateEvent (handleLabelAppStateEvent s u Index v) u Index v =
      handleLabelAppStateEvent s u Index v := by
  have hinit : handleLabelAppStateEvent (initChatLabels (initLabels s u) u) u Index v =
      handleLabelAppStateEvent s u Index v := by
    simp only [handleLabelAppStateEvent, initLabels_init, initChatLabels_init]
  have hwf := wf_initChatLabels (wf_initLabels h u) u
  match Index with
  | [] => simpa [handleLabelAppStateEvent] using hinit
  | [i0] => simpa [handleLabelAppStateEvent] using hinit
  | i0 :: l :: rest =>
    by_cases h1 : i0 = "label_edit"
    · simpa [handleLabelAppStateEvent, h1] using hinit
    · by_cases h2 : i0 = "label_jid"
      · subst h2
        match rest with
        | [] => simpa [handleLabelAppStateEvent] using hinit
        | c :: rest' =>
          simp only [handleLabelAppStateEvent]
          simp only [show ("label_jid" = "label_edit") = False by decide, if_false, if_true]
          generalize hb : stringsContains v "labeled:true" = b
          have e1 := initLabels_setAssocs_init s u
            (mergeAssoc (((initChatLabels (initLabels s u) u).chatLabelsCache.get? u).getD [])
              c l b)
          simp only [Store.setAssocs] at e1
          rw [e1]
          have e2 := initChatLabels_setAssocs (initChatLabels (initLabels s u) u) u
            (mergeAssoc (((initChatLabels (initLabels s u) u).chatLabelsCache.get? u).getD [])
              c l b)
          simp only [Store.setAssocs] at e2
          rw [e2]
          simp only [GoMap.get?_set_self, Option.getD_some, GoMap.set_set]
          rw [mergeAssoc_idem (nodup_getD hwf u)]
      · simpa [handleLabelAppStateEvent, h1, h2] using hinit

theorem count_mergeAssoc {xs : List ChatLabelAssociation} (h : xs.Nodup) (c l : String)
    (b : Bool) : (mergeAssoc xs c l b).count ⟨c, l⟩ = if b = true then 1 else 0 := by
  cases b with
  | true =>
    by_cases hf : foundAssoc xs c l = true
    · have hm := (foundAssoc_iff xs c l).1 hf
      simpa [mergeAssoc, hf] using List.count_eq_one_of_mem h hm
    · have hn : (⟨c, l⟩ : ChatLabelAssociation) ∉ xs := by
        rwa [← foundAssoc_iff]
      simp [mergeAssoc, hf, List.count_eq_zero_of_not_mem hn]
  | false =>
    simp only [mergeAssoc, Bool.false_eq_true, if_false, removeFirstAssoc_eq_erase]
    exact List.count_eq_zero_of_not_mem h.not_mem_erase

theorem filter_ne_erase (xs : List ChatLabelAssociation) (a : ChatLabelAssociation) :
    (xs.erase a).filter (fun x => decide (x ≠ a)) = xs.filter (fun x => decide (x ≠ a)) := by
  induction xs with
  | nil => rfl
  | cons x rest ih =>
    by_cases hx : x = a
    · subst hx
      simp
    · have hb : (x == a) = false := by simpa using hx
      rw [List.erase_cons, hb]
      simp only [Bool.false_eq_true, if_false, List.filter_cons, ih]

theorem filter_ne_mergeAssoc (xs : List ChatLabelAssociation) (c l : String) (b : Bool) :
    (mergeAssoc xs c l b).filter (fun x => decide (x ≠ ⟨c, l⟩)) =
      xs.filter (fun x => decide (x ≠ ⟨c, l⟩)) := by
  cases b with
  | true =>
    by_cases hf : foundAssoc xs c l = true
    · simp [mergeAssoc, hf]
    · simp [mergeAssoc, hf]
  | false =>
    simp only [mergeAssoc, Bool.false_eq_true, if_false, removeFirstAssoc_eq_erase]
    exact filter_ne_erase xs _

/-! ## Claims on the reconciler and on reachable states -/

/-- C2: in every store state reachable from the empty caches by gateway calls,
the seeding handler and reconciled events, no user's association list holds
the same (chat, label) pair twice. -/
theorem reachable_assocs_nodup (s : Store) (h : Reachable s) (u : String) :
    (s.assocsOf u).Nodup :=
  nodup_assocsOf (wf_of_reachable h) u

/-- C2, at the sample caches of user `u1`. -/
theorem reachable_assocs_nodup_witness :
    Reachable sampleStore ∧ (sampleStore.assocsOf "u1").Nodup :=
  ⟨⟨_, rfl⟩, reachable_assocs_nodup sampleStore ⟨_, rfl⟩ "u1"⟩

/-- C3: in every reachable store state, reconciling the same event (generic
delta, typed association event or typed label-edit event) twice in a row leaves
both caches exactly as reconciling it once does. -/
theorem reconcile_twice_eq_once (s : Store) (h : Reachable s) (u : String) (evt : Event) :
    (processLabelEvents (processLabelEvents s u evt).store u evt).store =
      (processLabelEvents s u evt).store := by
  have hwf := wf_of_reachable h
  cases evt with
  | AppState Index v => exact handleLabelAppStateEvent_idem hwf u Index v
  | LabelAssociationChat jid l a =>
    rw [processLabelEvents_assoc s, processLabelEvents_assoc, assocsOf_set,
      mergeAssoc_idem (nodup_assocsOf hwf u), setAssocs_setAssocs]
  | LabelEdit i a =>
    rw [processLabelEvents_edit s, processLabelEvents_edit, labelsOf_set, GoMap.set_set,
      setLabels_setLabels]
  | other => rfl

/-- C3, at the sample caches: an unlabel event for the chat tagged there. -/
theorem reconcile_twice_eq_once_witness :
    Reachable sampleStore ∧
      (processLabelEvents
          (processLabelEvents sampleStore "u1"
            (.LabelAssociationChat ⟨"123@c.us"⟩ "importante" (some ⟨some false⟩))).store "u1"
          (.LabelAssociationChat ⟨"123@c.us"⟩ "importante" (some ⟨some false⟩))).store =
        (processLabelEvents sampleStore "u1"
          (.LabelAssociationChat ⟨"123@c.us"⟩ "importante" (some ⟨some false⟩))).store :=
  ⟨⟨_, rfl⟩, reconcile_twice_eq_once sampleStore ⟨_, rfl⟩ "u1"
    (.LabelAssociationChat ⟨"123@c.us"⟩ "importante" (some ⟨some false⟩))⟩

/-- C9: in every reachable store state, after a typed `LabelAssociationChat`
event for user `u`, chat `c` and label `l`, the pair `(c, l)` occurs exactly
once in `u`'s list when the action is present with `labeled` present and true,
and not at all in every other case; the entries for other pairs are the same,
in the same order. -/
theorem typed_assoc_event_result (s : Store) (h : Reachable s) (u : String) (jid : JID)
    (l : String) (a : Option LabelAssociationAction) :
    ((processLabelEvents s u (.LabelAssociationChat jid l a)).store.assocsOf u).count
        ⟨jid.str, l⟩ = (if a = some ⟨some true⟩ then 1 else 0) ∧
      ((processLabelEvents s u (.LabelAssociationChat jid l a)).store.assocsOf u).filter
          (fun x => decide (x ≠ ⟨jid.str, l⟩)) =
        (s.assocsOf u).filter (fun x => decide (x ≠ ⟨jid.str, l⟩)) := by
  have hwf := wf_of_reachable h
  rw [processLabelEvents_assoc, assocsOf_set]
  refine ⟨?_, filter_ne_mergeAssoc _ _ _ _⟩
  rw [count_mergeAssoc (nodup_assocsOf hwf u)]
  simp

/-- C9, at the sample caches: the tagged chat is untagged by an event whose
action carries no `labeled` field. -/
theorem typed_assoc_event_result_witness :
    Reachable sampleStore ∧
      ((processLabelEvents sampleStore "u1"
          (.LabelAssociationChat ⟨"123@c.us"⟩ "importante" (some ⟨none⟩))).store.assocsOf
            "u1").count ⟨"123@c.us", "importante"⟩ = 0 :=
  ⟨⟨_, rfl⟩, (typed_assoc_event_result sampleStore ⟨_, rfl⟩ "u1" ⟨"123@c.us"⟩ "importante"
    (some ⟨none⟩)).1⟩

/-- C10: after a typed `LabelEdit` event for user `u` and label `i`, the entry
stored for `i` is the record built from the event alone (`ID = i`; name, color
and predefined ID from the action when present, the latter in decimal, else the
zero value; `Deleted` the action's flag or false; `Active` its negation or
true); every other entry of `u`, every other user's table and all association
lists are unchanged. -/
theorem label_edit_event_replaces_entry (s : Store) (u i : String)
    (a : Option LabelEditAction) (k v : String) :
    ((processLabelEvents s u (.LabelEdit i a)).store.labelsOf u).get? k =
        (if k = i then
          some { ID := i,
                 Name := (a.bind LabelEditAction.Name).getD "",
                 Color := (a.bind LabelEditAction.Color).getD 0,
                 PredefinedID := ((a.bind LabelEditAction.PredefinedID).map toString).getD "",
                 Deleted := (a.bind LabelEditAction.Deleted).getD false,
                 Active := match a.bind LabelEditAction.Deleted with
                   | some d => !d
                   | none => true }
        else (s.labelsOf u).get? k) ∧
      (processLabelEvents s u (.LabelEdit i a)).store.labelsCache.get? v =
        (if v = u then some ((s.labelsOf u).set i (labelInfoOfEdit i a))
         else s.labelsCache.get? v) ∧
      (processLabelEvents s u (.LabelEdit i a)).store.chatLabelsCache = s.chatLabelsCache := by
  rw [processLabelEvents_edit, labelsOf_set]
  refine ⟨?_, ?_, rfl⟩
  · by_cases hk : k = i
    · subst hk
      rw [GoMap.get?_set_self]
      simp only [if_true]
      congr 1
      cases a with
      | none => rfl
      | some a =>
        obtain ⟨n, c, p, d⟩ := a
        cases n <;> cases c <;> cases p <;> cases d <;> rfl
    · simp only [hk, if_false]
      exact GoMap.get?_set_ne _ _ hk
  · by_cases hv : v = u
    · subst hv
      simp [Store.setLabels, GoMap.get?_set_self]
    · simp only [hv, if_false]
      exact GoMap.get?_set_ne _ _ hv

/-! ## Claims on the gateway handlers -/

/-- C7: a gateway request with an empty required field, or with a chat
identifier the JID parser rejects, is answered with an error, hands no patch
to `SendAppState`, and leaves both caches unchanged. -/
theorem validation_failure_keeps_store (env : Env) (s : Store) (txtid : String)
    (call : GatewayCall) (h : call.failsValidation env.parseJID) :
    (call.run env s txtid).resp.isError = true ∧ (call.run env s txtid).sent = [] ∧
      (call.run env s txtid).store = s := by
  cases call with
  | CreateLabel body =>
    cases body with
    | none => exact absurd h (by simp [GatewayCall.failsValidation])
    | some req =>
      simp only [GatewayCall.failsValidation] at h
      simp only [GatewayCall.run, CreateLabel]
      cases env.GetMyClient txtid <;> simp [h, respondError, Response.isError]
  | EditLabel body =>
    cases body with
    | none => exact absurd h (by simp [GatewayCall.failsValidation])
    | some req =>
      simp only [GatewayCall.failsValidation] at h
      simp only [GatewayCall.run, EditLabel]
      cases env.GetMyClient txtid <;> simp [h, respondError, Response.isError]
  | DeleteLabel body =>
    cases body with
    | none => exact absurd h (by simp [GatewayCall.failsValidation])
    | some req =>
      simp only [GatewayCall.failsValidation] at h
      simp only [GatewayCall.run, DeleteLabel]
      cases env.GetMyClient txtid <;> simp [h, respondError, Response.isError]
  | AssociateChatLabel body =>
    cases body with
    | none => exact absurd h (by simp [GatewayCall.failsValidation])
    | some req =>
      simp only [GatewayCall.failsValidation] at h
      simp only [GatewayCall.run, AssociateChatLabel]
      cases env.GetMyClient txtid with
      | none => simp [respondError, Response.isError]
      | some mycli =>
        by_cases he : req.ChatJID = "" ∨ req.LabelID = ""
        · simp [he, respondError, Response.isError]
        · have hp : env.parseJID req.ChatJID = none := by
            rcases h with h | h | h
            · exact absurd (Or.inl h) he
            · exact absurd (Or.inr h) he
            · exact h
          simp [he, hp, respondError, Response.isError]
  | DisassociateChatLabel body =>
    cases body with
    | none => exact absurd h (by simp [GatewayCall.failsValidation])
    | some req =>
      simp only [GatewayCall.failsValidation] at h
      simp only [GatewayCall.run, DisassociateChatLabel]
      cases env.GetMyClient txtid with
      | none => simp [respondError, Response.isError]
      | some mycli =>
        by_cases he : req.ChatJID = "" ∨ req.LabelID = ""
        · simp [he, respondError, Response.isError]
        · have hp : env.parseJID req.ChatJID = none := by
            rcases h with h | h | h
            · exact absurd (Or.inl h) he
            · exact absurd (Or.inr h) he
            · exact h
          simp [he, hp, respondError, Response.isError]

/-- C7, at a concrete call: associating a chat identifier without `@`, which
the sample parser rejects. -/
theorem validation_failure_keeps_store_witness :
    ((GatewayCall.AssociateChatLabel (some ⟨"12345", "importante"⟩)).run envOk sampleStore
        "u1").resp.isError = true ∧
      ((GatewayCall.AssociateChatLabel (some ⟨"12345", "importante"⟩)).run envOk sampleStore
        "u1").sent = [] ∧
      ((GatewayCall.AssociateChatLabel (some ⟨"12345", "importante"⟩)).run envOk sampleStore
        "u1").store = sampleStore :=
  validation_failure_keeps_store envOk sampleStore "u1"
    (.AssociateChatLabel (some ⟨"12345", "importante"⟩)) (Or.inr (Or.inr (by decide)))

theorem getUserLabels_eq_map (s : Store) (u : String) :
    getUserLabels s u = (s.labelsOf u).map (fun kv =>
      (kv.1, { ID := kv.2.ID, Name := kv.2.Name, Color := kv.2.Color,
               PredefinedID := "", Deleted := false, Active := kv.2.Active })) := by
  unfold getUserLabels Store.labelsOf
  cases s.labelsCache.get? u <;> rfl

theorem mem_activeLabels (s : Store) (u : String) (x : LabelInfo) :
    x ∈ activeLabels s u ↔ ∃ kv ∈ s.labelsOf u, kv.2.Active = true ∧
      x = { ID := kv.2.ID, Name := kv.2.Name, Color := kv.2.Color,
            PredefinedID := "", Deleted := false, Active := kv.2.Active } := by
  simp only [activeLabels, getUserLabels_eq_map, List.mem_map, List.mem_filter]
  constructor
  · rintro ⟨kv', ⟨⟨kv, hkv, rfl⟩, hact⟩, rfl⟩
    exact ⟨kv, hkv, hact, rfl⟩
  · rintro ⟨kv, hkv, hact, rfl⟩
    exact ⟨_, ⟨⟨kv, hkv, rfl⟩, hact⟩, rfl⟩

theorem GoMap.get?_of_mem {V : Type} {m : GoMap V} (h : m.keys.Nodup) {k : String} {v : V}
    (hm : (k, v) ∈ m) : m.get? k = some v := by
  induction m with
  | nil => simp at hm
  | cons kv rest ih =>
    obtain ⟨k', v'⟩ := kv
    simp only [GoMap.keys, List.map_cons, List.nodup_cons] at h
    rcases List.mem_cons.1 hm with e | e
    · cases e
      simp [GoMap.get?]
    · have hne : k' ≠ k := by
        intro e'
        subst e'
        exact h.1 (List.mem_map.2 ⟨_, e, rfl⟩)
      simp only [GoMap.get?, hne, if_false]
      exact ih h.2 e

theorem labelsOf_get?_some {s : Store} {u k : String} {l : LabelInfo}
    (h : (s.labelsOf u).get? k = some l) : s.labelsCache.get? u = some (s.labelsOf u) := by
  unfold Store.labelsOf at h ⊢
  cases hg : s.labelsCache.get? u with
  | none => simp [hg, GoMap.get?] at h
  | some m => simp

/-- The outcome of a `CreateLabel` whose client exists, whose name is not
empty and whose remote send succeeds. -/
theorem CreateLabel_ok (env : Env) (s : Store) (txtid name : String) (color : Int)
    (mycli : MyClient) (hcli : env.GetMyClient txtid = some mycli) (hname : name ≠ "")
    (hsend : mycli.SendAppState
      (Patch.BuildLabelEdit (newLabelID env.now name) name color false) = none) :
    CreateLabel env s txtid (some ⟨name, color⟩) =
      ⟨s.setLabels txtid ((s.labelsOf txtid).set (newLabelID env.now name)
          ⟨newLabelID env.now name, name, color, "", false, true⟩),
        ⟨200, .created (newLabelID env.now name) name color
          "Label created successfully via WhatsApp AppState"⟩,
        [Patch.BuildLabelEdit (newLabelID env.now name) name color false]⟩ := by
  simp [CreateLabel, hcli, hname, hsend, Store.setLabels, Store.labelsOf]

/-- The outcome of a `DeleteLabel` of a stored label whose remote send
succeeds. -/
theorem DeleteLabel_ok (env : Env) (s : Store) (txtid id : String) (l : LabelInfo)
    (mycli : MyClient) (hcli : env.GetMyClient txtid = some mycli) (hid : id ≠ "")
    (hl : (s.labelsOf txtid).get? id = some l)
    (hsend : mycli.SendAppState (Patch.BuildLabelEdit id l.Name l.Color true) = none) :
    DeleteLabel env s txtid (some ⟨id⟩) =
      ⟨s.setLabels txtid ((s.labelsOf txtid).set id { l with Active := false, Deleted := true }),
        ⟨200, .message "Label deleted successfully via WhatsApp AppState"⟩,
        [Patch.BuildLabelEdit id l.Name l.Color true]⟩ := by
  have hu := labelsOf_get?_some hl
  simp [DeleteLabel, hcli, hid, hu, hl, hsend, Store.setLabels]

/-- C4: after a successful `CreateLabel` (client present, name not empty, remote
send accepted) the call answers 200 with the generated label ID, and the
active-label listing of the user holds under that ID a label with the requested
name and color, `Active = true` and `Deleted = false`. -/
theorem create_then_listed (env : Env) (s : Store) (txtid name : String) (color : Int)
    (mycli : MyClient) (hcli : env.GetMyClient txtid = some mycli) (hname : name ≠ "")
    (hsend : mycli.SendAppState
      (Patch.BuildLabelEdit (newLabelID env.now name) name color false) = none) :
    (CreateLabel env s txtid (some ⟨name, color⟩)).resp =
        ⟨200, .created (newLabelID env.now name) name color
          "Label created successfully via WhatsApp AppState"⟩ ∧
      (⟨newLabelID env.now name, name, color, "", false, true⟩ : LabelInfo) ∈
        activeLabels (CreateLabel env s txtid (some ⟨name, color⟩)).store txtid := by
  rw [CreateLabel_ok env s txtid name color mycli hcli hname hsend]
  refine ⟨rfl, ?_⟩
  rw [mem_activeLabels, labelsOf_set]
  exact ⟨_, GoMap.mem_set_self _ _ _, rfl, rfl⟩

/-- C4, at a concrete call: the scenario `createLabel(u, "Urgent", 0)` of the
specification on empty caches. -/
theorem create_then_listed_witness :
    (CreateLabel envOk Store.empty "u1" (some ⟨"Urgent", 0⟩)).resp =
        ⟨200, .created (newLabelID 1700000000 "Urgent") "Urgent" 0
          "Label created successfully via WhatsApp AppState"⟩ ∧
      (⟨newLabelID 1700000000 "Urgent", "Urgent", 0, "", false, true⟩ : LabelInfo) ∈
        activeLabels (CreateLabel envOk Store.empty "u1" (some ⟨"Urgent", 0⟩)).store "u1" :=
  create_then_listed envOk Store.empty "u1" "Urgent" 0 clientOk rfl (by decide) rfl

/-- C5: in a reachable store state, after a successful `DeleteLabel` of a label
ID that has a stored entry, the stored entry is the old one with
`Active = false` and `Deleted = true`, the ID is still a key of the user's
table, and no label of the active-label listing carries that ID. -/
theorem delete_marks_and_hides (s : Store) (h : Reachable s) (env : Env) (txtid id : String)
    (l : LabelInfo) (mycli : MyClient) (hcli : env.GetMyClient txtid = some mycli)
    (hid : id ≠ "") (hl : (s.labelsOf txtid).get? id = some l)
    (hsend : mycli.SendAppState (Patch.BuildLabelEdit id l.Name l.Color true) = none) :
    (DeleteLabel env s txtid (some ⟨id⟩)).resp.status = 200 ∧
      ((DeleteLabel env s txtid (some ⟨id⟩)).store.labelsOf txtid).get? id =
        some { l with Active := false, Deleted := true } ∧
      id ∈ ((DeleteLabel env s txtid (some ⟨id⟩)).store.labelsOf txtid).keys ∧
      ∀ x ∈ activeLabels (DeleteLabel env s txtid (some ⟨id⟩)).store txtid, x.ID ≠ id := by
  have hwf' : (s.setLabels txtid
      ((s.labelsOf txtid).set id { l with Active := false, Deleted := true })).WF := by
    have := wf_DeleteLabel (wf_of_reachable h) env txtid (some ⟨id⟩)
    rw [DeleteLabel_ok env s txtid id l mycli hcli hid hl hsend] at this
    exact this
  have hm' := labelsWF_labelsOf hwf' txtid
  rw [labelsOf_set] at hm'
  rw [DeleteLabel_ok env s txtid id l mycli hcli hid hl hsend]
  have hget := GoMap.get?_set_self (s.labelsOf txtid) id { l with Active := false, Deleted := true }
  refine ⟨rfl, ?_, ?_, ?_⟩
  · rw [labelsOf_set]
    exact hget
  · rw [labelsOf_set]
    exact List.mem_map.2 ⟨_, GoMap.mem_of_get? _ hget, rfl⟩
  · intro x hx
    rw [mem_activeLabels, labelsOf_set] at hx
    obtain ⟨kv, hkv, hact, rfl⟩ := hx
    intro hxid
    simp only at hxid
    have hk : kv.1 = id := by rw [← (hm'.2 kv hkv).1]; exact hxid
    obtain ⟨k, v⟩ := kv
    simp only at hk
    subst hk
    have := GoMap.get?_of_mem hm'.1 hkv
    rw [hget] at this
    cases this
    simp at hact

/-- C5, at the sample caches: user `u1` deletes the label created there. -/
theorem delete_marks_and_hides_witness :
    Reachable sampleStore ∧
      ((DeleteLabel envOk sampleStore "u1" (some ⟨"label_1700000000_Urgent"⟩)).store.labelsOf
          "u1").get? "label_1700000000_Urgent" =
        some ⟨"label_1700000000_Urgent", "Urgent", 0, "", true, false⟩ ∧
      ∀ x ∈ activeLabels
          (DeleteLabel envOk sampleStore "u1" (some ⟨"label_1700000000_Urgent"⟩)).store "u1",
        x.ID ≠ "label_1700000000_Urgent" :=
  have hw := delete_marks_and_hides sampleStore ⟨_, rfl⟩ envOk "u1" "label_1700000000_Urgent"
    ⟨"label_1700000000_Urgent", "Urgent", 0, "", false, true⟩ clientOk rfl (by decide)
    (by decide) rfl
  ⟨⟨_, rfl⟩, hw.2.1, hw.2.2.2⟩

/-- The caches after an `AssociateChatLabel` that did not answer with an
error: the pair is added to the user's list unless it is already there. -/
theorem AssociateChatLabel_store_of_ok (env : Env) (s : Store) (txtid c l : String)
    (h : (AssociateChatLabel env s txtid (some ⟨c, l⟩)).resp.isError = false) :
    (AssociateChatLabel env s txtid (some ⟨c, l⟩)).store =
      s.setAssocs txtid (mergeAssoc (s.assocsOf txtid) c l true) := by
  unfold AssociateChatLabel at h ⊢
  cases hc : env.GetMyClient txtid with
  | none => simp [hc, respondError, Response.isError] at h
  | some mycli =>
    simp only [hc] at h ⊢
    by_cases he : c = "" ∨ l = ""
    · simp [he, respondError, Response.isError] at h
    · simp only [he, if_false] at h ⊢
      cases hp : env.parseJID c with
      | none => simp [hp, respondError, Response.isError] at h
      | some chatJID =>
        simp only [hp] at h ⊢
        cases hs : mycli.SendAppState (Patch.BuildLabelChat chatJID l true) with
        | some err => simp [hs, respondError, Response.isError] at h
        | none => simp [Store.setAssocs, Store.assocsOf, mergeAssoc]

/-- C8: in a reachable store state, two successful `AssociateChatLabel` calls
in sequence with the same chat and label leave exactly one entry for the pair
in the user's list, and the second call leaves the caches as the first call
left them. -/
theorem associate_twice_once (s : Store) (h : Reachable s) (env₁ env₂ : Env)
    (txtid c l : String)
    (h₁ : (AssociateChatLabel env₁ s txtid (some ⟨c, l⟩)).resp.isError = false)
    (h₂ : (AssociateChatLabel env₂ (AssociateChatLabel env₁ s txtid (some ⟨c, l⟩)).store txtid
      (some ⟨c, l⟩)).resp.isError = false) :
    ((AssociateChatLabel env₂ (AssociateChatLabel env₁ s txtid (some ⟨c, l⟩)).store txtid
        (some ⟨c, l⟩)).store.assocsOf txtid).count ⟨c, l⟩ = 1 ∧
      (AssociateChatLabel env₂ (AssociateChatLabel env₁ s txtid (some ⟨c, l⟩)).store txtid
        (some ⟨c, l⟩)).store = (AssociateChatLabel env₁ s txtid (some ⟨c, l⟩)).store := by
  have hx := nodup_assocsOf (wf_of_reachable h) txtid
  have e₂ := AssociateChatLabel_store_of_ok env₂ _ txtid c l h₂
  have e₁ := AssociateChatLabel_store_of_ok env₁ s txtid c l h₁
  rw [e₂, e₁]
  simp only [assocsOf_set, mergeAssoc_idem hx, setAssocs_setAssocs]
  exact ⟨by simpa using count_mergeAssoc hx c l true, trivial⟩

/-- C8, at the sample caches: the chat tagged there is tagged twice more. -/
theorem associate_twice_once_witness :
    Reachable sampleStore ∧
      ((AssociateChatLabel envOk
          (AssociateChatLabel envOk sampleStore "u1" (some ⟨"123@c.us", "importante"⟩)).store
          "u1" (some ⟨"123@c.us", "importante"⟩)).store.assocsOf "u1").count
        ⟨"123@c.us", "importante"⟩ = 1 :=
  ⟨⟨_, rfl⟩, (associate_twice_once sampleStore ⟨_, rfl⟩ envOk envOk "u1" "123@c.us"
    "importante" (by decide) (by decide)).1⟩

/-- C6: `getUserLabels` does not return the stored records field by field. At
the caches where `u1` deleted its label the stored record has `Deleted = true`
and the returned one `Deleted = false`; at the caches where an event stored the
predefined ID `"3"` the returned record has an empty predefined ID. -/
theorem getUserLabels_drops_fields :
    Reachable sampleDeleted ∧
      (sampleDeleted.labelsOf "u1").get? "label_1700000000_Urgent" =
        some ⟨"label_1700000000_Urgent", "Urgent", 0, "", true, false⟩ ∧
      (getUserLabels sampleDeleted "u1").get? "label_1700000000_Urgent" =
        some ⟨"label_1700000000_Urgent", "Urgent", 0, "", false, false⟩ ∧
      Reachable sampleEdited ∧
      (sampleEdited.labelsOf "u1").get? "7" = some ⟨"7", "VIP", 2, "3", false, true⟩ ∧
      (getUserLabels sampleEdited "u1").get? "7" = some ⟨"7", "VIP", 2, "", false, true⟩ :=
  ⟨⟨[ .gateway envOk "u1" (.CreateLabel (some ⟨"Urgent", 0⟩)),
      .gateway envOk "u1" (.AssociateChatLabel (some ⟨"123@c.us", "importante"⟩)),
      .gateway envOk "u1" (.DeleteLabel (some ⟨"label_1700000000_Urgent"⟩)) ], rfl⟩,
    by decide, by decide,
    ⟨[ .event "u1" (.LabelEdit "7" (some ⟨some "VIP", some 2, some 3, none⟩)) ], rfl⟩,
    by decide, by decide⟩

/-! ## Claims on `EditLabel` -/

theorem labelsOf_get? (s : Store) (u k : String) :
    (s.labelsCache.get? u).bind (fun m => m.get? k) = (s.labelsOf u).get? k := by
  unfold Store.labelsOf
  cases s.labelsCache.get? u <;> rfl

/-- The outcome of an `EditLabel` whose client exists, whose label ID and name
are not empty and whose remote send succeeds. -/
theorem EditLabel_ok (env : Env) (s : Store) (txtid id name : String) (color : Int)
    (mycli : MyClient) (hcli : env.GetMyClient txtid = some mycli) (hid : id ≠ "")
    (hname : name ≠ "")
    (hsend : mycli.SendAppState (Patch.BuildLabelEdit id name color false) = none) :
    EditLabel env s txtid (some ⟨id, name, color⟩) =
      ⟨s.setLabels txtid ((s.labelsOf txtid).set id
          (match (s.labelsOf txtid).get? id with
            | some l => { l with Name := name, Color := color }
            | none => ⟨id, name, color, "", false, true⟩)),
        ⟨200, .message "Label updated successfully via WhatsApp AppState"⟩,
        [Patch.BuildLabelEdit id name color false]⟩ := by
  simp only [EditLabel, hcli, hid, hname, or_self, if_false, hsend, labelsOf_get?]
  cases (s.labelsOf txtid).get? id <;> rfl

/-- C11: after a successful `EditLabel(u, id, name, color)` the entry stored for
`id` is the prior entry with the requested name and color, or, when `id` had no
entry, a new record with that name and color, `Active = true` and
`Deleted = false`; every other entry of `u`'s label table is unchanged. -/
theorem edit_sets_name_color (env : Env) (s : Store) (txtid id name : String) (color : Int)
    (mycli : MyClient) (hcli : env.GetMyClient txtid = some mycli) (hid : id ≠ "")
    (hname : name ≠ "")
    (hsend : mycli.SendAppState (Patch.BuildLabelEdit id name color false) = none)
    (k : String) :
    (EditLabel env s txtid (some ⟨id, name, color⟩)).resp.status = 200 ∧
      ((EditLabel env s txtid (some ⟨id, name, color⟩)).store.labelsOf txtid).get? k =
        (if k = id then
          some (match (s.labelsOf txtid).get? id with
            | some l => { l with Name := name, Color := color }
            | none => ⟨id, name, color, "", false, true⟩)
        else (s.labelsOf txtid).get? k) := by
  rw [EditLabel_ok env s txtid id name color mycli hcli hid hname hsend]
  refine ⟨rfl, ?_⟩
  rw [labelsOf_set]
  by_cases hk : k = id
  · subst hk
    simp only [if_true]
    exact GoMap.get?_set_self _ _ _
  · simp only [hk, if_false]
    exact GoMap.get?_set_ne _ _ hk

/-- C11, at the sample caches: user `u1` renames the label created there. -/
theorem edit_sets_name_color_witness :
    (EditLabel envOk sampleStore "u1" (some ⟨"label_1700000000_Urgent", "Later", 2⟩)).resp.status
        = 200 ∧
      ((EditLabel envOk sampleStore "u1"
          (some ⟨"label_1700000000_Urgent", "Later", 2⟩)).store.labelsOf "u1").get?
          "label_1700000000_Urgent" =
        some ⟨"label_1700000000_Urgent", "Later", 2, "", false, true⟩ :=
  edit_sets_name_color envOk sampleStore "u1" "label_1700000000_Urgent" "Later" 2 clientOk rfl
    (by decide) (by decide) rfl "label_1700000000_Urgent"

/-- C12, refuted: at the caches where `u1` deleted its label, a successful
`EditLabel` of that label answers 200 and leaves the entry with
`Deleted = true` and `Active = false`. -/
theorem edit_of_deleted_stays_deleted :
    Reachable sampleDeleted ∧
      (EditLabel envOk sampleDeleted "u1"
        (some ⟨"label_1700000000_Urgent", "Later", 2⟩)).resp.status = 200 ∧
      (EditLabel envOk sampleDeleted "u1"
        (some ⟨"label_1700000000_Urgent", "Later", 2⟩)).sent =
        [Patch.BuildLabelEdit "label_1700000000_Urgent" "Later" 2 false] ∧
      ((EditLabel envOk sampleDeleted "u1"
          (some ⟨"label_1700000000_Urgent", "Later", 2⟩)).store.labelsOf "u1").get?
          "label_1700000000_Urgent" =
        some ⟨"label_1700000000_Urgent", "Later", 2, "", true, false⟩ :=
  ⟨⟨[ .gateway envOk "u1" (.CreateLabel (some ⟨"Urgent", 0⟩)),
      .gateway envOk "u1" (.AssociateChatLabel (some ⟨"123@c.us", "importante"⟩)),
      .gateway envOk "u1" (.DeleteLabel (some ⟨"label_1700000000_Urgent"⟩)) ], rfl⟩,
    by decide, by decide, by decide⟩

/-- The entry an `EditLabel` leaves for its label ID: requested name and color,
flags of the prior entry or those of a fresh record. -/
theorem edit_keeps_flags_aux (env : Env) (s : Store) (txtid id name : String) (color : Int)
    (mycli : MyClient) (hcli : env.GetMyClient txtid = some mycli) (hid : id ≠ "")
    (hname : name ≠ "")
    (hsend : mycli.SendAppState (Patch.BuildLabelEdit id name color false) = none) :
    ∃ l', ((EditLabel env s txtid (some ⟨id, name, color⟩)).store.labelsOf txtid).get? id =
        some l' ∧ l'.Name = name ∧ l'.Color = color ∧
      l'.Deleted = (match (s.labelsOf txtid).get? id with
        | some l => l.Deleted
        | none => false) ∧
      l'.Active = (match (s.labelsOf txtid).get? id with
        | some l => l.Active
        | none => true) := by
  rw [EditLabel_ok env s txtid id name color mycli hcli hid hname hsend]
  refine ⟨_, by rw [labelsOf_set]; exact GoMap.get?_set_self _ _ _, ?_⟩
  cases (s.labelsOf txtid).get? id <;> exact ⟨rfl, rfl, rfl, rfl⟩

/-- C12, amended: after a successful `EditLabel(u, id, name, color)` the entry
stored for `id` has the requested name and color; its `Deleted` and `Active`
flags are those of the prior entry when there was one, and `false` and `true`
when there was none. -/
theorem edit_keeps_flags (env : Env) (s : Store) (txtid id name : String) (color : Int)
    (mycli : MyClient) (hcli : env.GetMyClient txtid = some mycli) (hid : id ≠ "")
    (hname : name ≠ "")
    (hsend : mycli.SendAppState (Patch.BuildLabelEdit id name color false) = none) :
    ∃ l', ((EditLabel env s txtid (some ⟨id, name, color⟩)).store.labelsOf txtid).get? id =
        some l' ∧ l'.Name = name ∧ l'.Color = color ∧
      l'.Deleted = (match (s.labelsOf txtid).get? id with
        | some l => l.Deleted
        | none => false) ∧
      l'.Active = (match (s.labelsOf txtid).get? id with
        | some l => l.Active
        | none => true) :=
  edit_keeps_flags_aux env s txtid id name color mycli hcli hid hname hsend

/-- C12 amended, at the caches where `u1` deleted its label. -/
theorem edit_keeps_flags_witness :
    ∃ l', ((EditLabel envOk sampleDeleted "u1"
          (some ⟨"label_1700000000_Urgent", "Later", 2⟩)).store.labelsOf "u1").get?
          "label_1700000000_Urgent" = some l' ∧ l'.Name = "Later" ∧ l'.Color = 2 ∧
      l'.Deleted = (match (sampleDeleted.labelsOf "u1").get? "label_1700000000_Urgent" with
        | some l => l.Deleted
        | none => false) ∧
      l'.Active = (match (sampleDeleted.labelsOf "u1").get? "label_1700000000_Urgent" with
        | some l => l.Active
        | none => true) :=
  edit_keeps_flags envOk sampleDeleted "u1" "label_1700000000_Urgent" "Later" 2 clientOk rfl
    (by decide) (by decide) rfl

/-! ## Claims on `createCommonLabels` -/

/-- The lookup of a key after the seeding loop over a table `l`: a binding that
was there is kept, a missing one is taken from the first binding of `l`. -/
theorem seed_get? (l : List (String × LabelInfo)) (m : GoMap LabelInfo) (k : String) :
    (l.foldl
      (fun m kv =>
        match m.get? kv.1 with
        | none => m.set kv.1 { ID := kv.2.ID, Name := kv.2.Name, Color := kv.2.Color,
                               PredefinedID := "", Deleted := false, Active := kv.2.Active }
        | some _ => m) m).get? k =
      (match m.get? k with
        | some v => some v
        | none => (GoMap.get? l k).map (fun v =>
            { ID := v.ID, Name := v.Name, Color := v.Color,
              PredefinedID := "", Deleted := false, Active := v.Active })) := by
  induction l generalizing m with
  | nil =>
    simp only [List.foldl_nil]
    cases hm : m.get? k <;> simp [GoMap.get?]
  | cons kv rest ih =>
    obtain ⟨k', v'⟩ := kv
    simp only [List.foldl_cons]
    rw [ih]
    by_cases hk : k' = k
    · subst hk
      cases hm : m.get? k' with
      | none => simp [GoMap.get?_set_self, GoMap.get?]
      | some v => simp [hm]
    · cases hm : m.get? k' with
      | none => simp [GoMap.get?_set_ne _ _ (Ne.symm hk), GoMap.get?, hk]
      | some v => simp [GoMap.get?, hk]

/-- The seeding loop changes nothing when every key of the table is bound. -/
theorem seed_of_present (l : List (String × LabelInfo)) (m : GoMap LabelInfo)
    (h : ∀ kv ∈ l, m.get? kv.1 ≠ none) :
    l.foldl
      (fun m kv =>
        match m.get? kv.1 with
        | none => m.set kv.1 { ID := kv.2.ID, Name := kv.2.Name, Color := kv.2.Color,
                               PredefinedID := "", Deleted := false, Active := kv.2.Active }
        | some _ => m) m = m := by
  induction l with
  | nil => rfl
  | cons kv rest ih =>
    simp only [List.foldl_cons]
    have hkv := h kv (List.mem_cons_self _ _)
    cases hm : m.get? kv.1 with
    | none => exact absurd hm hkv
    | some v => exact ih (fun kv' h' => h kv' (List.mem_cons_of_mem _ h'))

theorem GoMap.get?_ne_none_of_mem {V : Type} (m : GoMap V) {kv : String × V} (h : kv ∈ m) :
    m.get? kv.1 ≠ none := by
  rw [Ne, GoMap.get?_eq_none_iff, not_not]
  exact List.mem_map.2 ⟨kv, h, rfl⟩

/-- The caches after `createCommonLabels`, with the loop kept as a fold. -/
theorem createCommonLabels_eq (s : Store) (u : String) :
    createCommonLabels s u = s.setLabels u (commonLabels.foldl
      (fun m kv =>
        match m.get? kv.1 with
        | none => m.set kv.1 { ID := kv.2.ID, Name := kv.2.Name, Color := kv.2.Color,
                               PredefinedID := "", Deleted := false, Active := kv.2.Active }
        | some _ => m) (s.labelsOf u)) := rfl

theorem createCommonLabels_get? (s : Store) (u k : String) :
    ((createCommonLabels s u).labelsOf u).get? k =
      (match (s.labelsOf u).get? k with
        | some l => some l
        | none => GoMap.get? commonLabels k) := by
  rw [createCommonLabels_eq, labelsOf_set, seed_get?]
  cases (s.labelsOf u).get? k with
  | some l => rfl
  | none =>
    simp only
    have hc : ∀ kv ∈ commonLabels, kv.2.PredefinedID = "" ∧ kv.2.Deleted = false := by decide
    cases hg : GoMap.get? commonLabels k with
    | none => rfl
    | some v =>
      have := hc (k, v) (GoMap.mem_of_get? _ hg)
      obtain ⟨i, n, c, p, d, a⟩ := v
      simp only at this
      simp [this.1, this.2]

/-- C13: after `createCommonLabels(u)` a lookup in `u`'s label table returns the
entry that was there before when there was one (deleted or not, seeded ID or
not), and otherwise the entry of the table `commonLabels` when the key is one
of its six IDs, and nothing for any other key; the six entries of the table are
stored under their own ID with `Active = true` and `Deleted = false`. -/
theorem seed_keeps_and_fills (s : Store) (u k : String) :
    ((createCommonLabels s u).labelsOf u).get? k =
        (match (s.labelsOf u).get? k with
          | some l => some l
          | none => GoMap.get? commonLabels k) ∧
      GoMap.keys commonLabels =
        ["importante", "trabalho", "familia", "urgente", "pendente", "concluido"] ∧
      commonLabels.all (fun kv => kv.2.ID == kv.1 && kv.2.Active && !kv.2.Deleted) = true ∧
      commonLabels.map (fun kv => (kv.2.Name, kv.2.Color)) =
        [("⭐ Importante", 0), ("💼 Trabalho", 4), ("👨‍👩‍👧‍👦 Família", 3), ("🚨 Urgente", 0),
         ("⏳ Pendente", 1), ("✅ Concluído", 3)] :=
  ⟨createCommonLabels_get? s u k, rfl, by decide, rfl⟩

/-- C14: running `createCommonLabels(u)`, then a successful
`EditLabel(u, i, name, color)`, then `createCommonLabels(u)` again leaves the
entry for `i` as the edit left it (an entry with the edited name and color);
and running `createCommonLabels(u)` twice in a row gives the same caches as
running it once. -/
theorem seed_edit_seed (env : Env) (s : Store) (u i name : String) (color : Int)
    (mycli : MyClient) (hcli : env.GetMyClient u = some mycli) (hid : i ≠ "")
    (hname : name ≠ "")
    (hsend : mycli.SendAppState (Patch.BuildLabelEdit i name color false) = none) :
    (∃ l, ((EditLabel env (createCommonLabels s u) u (some ⟨i, name, color⟩)).store.labelsOf
          u).get? i = some l ∧ l.Name = name ∧ l.Color = color ∧
        ((createCommonLabels
          (EditLabel env (createCommonLabels s u) u (some ⟨i, name, color⟩)).store u).labelsOf
            u).get? i = some l) ∧
      createCommonLabels (createCommonLabels s u) u = createCommonLabels s u := by
  constructor
  · obtain ⟨l, hl, hn, hc, _⟩ :=
      edit_keeps_flags_aux env (createCommonLabels s u) u i name color mycli hcli hid hname hsend
    refine ⟨l, hl, hn, hc, ?_⟩
    rw [createCommonLabels_get?, hl]
  · rw [createCommonLabels_eq (createCommonLabels s u), seed_of_present]
    · rw [createCommonLabels_eq, labelsOf_set, setLabels_setLabels]
    · intro kv hkv
      rw [createCommonLabels_get?]
      cases (s.labelsOf u).get? kv.1 with
      | some l => simp
      | none => exact GoMap.get?_ne_none_of_mem _ hkv

/-- C14, at a concrete run: on empty caches `u1` is seeded, renames `urgente`,
and is seeded again. -/
theorem seed_edit_seed_witness :
    (∃ l, ((EditLabel envOk (createCommonLabels Store.empty "u1") "u1"
          (some ⟨"urgente", "Fire", 5⟩)).store.labelsOf "u1").get? "urgente" = some l ∧
        l.Name = "Fire" ∧ l.Color = 5 ∧
        ((createCommonLabels
          (EditLabel envOk (createCommonLabels Store.empty "u1") "u1"
            (some ⟨"urgente", "Fire", 5⟩)).store "u1").labelsOf "u1").get? "urgente" = some l) ∧
      createCommonLabels (createCommonLabels Store.empty "u1") "u1" =
        createCommonLabels Store.empty "u1" :=
  seed_edit_seed envOk Store.empty "u1" "urgente" "Fire" 5 clientOk rfl (by decide) (by decide)
    rfl

/-! ## The contents of the caches of every user -/

theorem labelsOf_initLabels (s : Store) (u w : String) :
    (initLabels s u).labelsOf w = s.labelsOf w := by
  unfold initLabels
  cases h : s.labelsCache.get? u with
  | some m => rfl
  | none =>
    by_cases hw : w = u
    · subst hw
      simp [Store.labelsOf, GoMap.get?_set_self, h]
    · simp [Store.labelsOf, GoMap.get?_set_ne _ _ hw]

theorem assocsOf_initLabels (s : Store) (u w : String) :
    (initLabels s u).assocsOf w = s.assocsOf w := by
  simp [Store.assocsOf, initLabels_chatLabelsCache]

theorem assocsOf_initChatLabels (s : Store) (u w : String) :
    (initChatLabels s u).assocsOf w = s.assocsOf w := by
  unfold initChatLabels
  cases h : s.chatLabelsCache.get? u with
  | some m => rfl
  | none =>
    by_cases hw : w = u
    · subst hw
      simp [Store.assocsOf, GoMap.get?_set_self, h]
    · simp [Store.assocsOf, GoMap.get?_set_ne _ _ hw]

theorem labelsOf_initChatLabels (s : Store) (u w : String) :
    (initChatLabels s u).labelsOf w = s.labelsOf w := by
  simp [Store.labelsOf, initChatLabels_labelsCache]

theorem labelsOf_setAssocs (s : Store) (u w : String) (xs : List ChatLabelAssociation) :
    (s.setAssocs u xs).labelsOf w = s.labelsOf w := rfl

theorem assocsOf_setLabels (s : Store) (u w : String) (m : GoMap LabelInfo) :
    (s.setLabels u m).assocsOf w = s.assocsOf w := rfl

theorem assocsOf_setAssocs_ne (s : Store) {u w : String} (xs : List ChatLabelAssociation)
    (h : w ≠ u) : (s.setAssocs u xs).assocsOf w = s.assocsOf w := by
  simp [Store.assocsOf, Store.setAssocs, GoMap.get?_set_ne _ _ h]

theorem labelsOf_setLabels_ne (s : Store) {u w : String} (m : GoMap LabelInfo)
    (h : w ≠ u) : (s.setLabels u m).labelsOf w = s.labelsOf w := by
  simp [Store.labelsOf, Store.setLabels, GoMap.get?_set_ne _ _ h]

/-- The caches after a generic delta whose index path begins with `label_jid`
and has at least 3 elements. -/
theorem handleLabelAppStateEvent_label_jid (s : Store) (u l c : String) (rest : List String)
    (v : String) :
    handleLabelAppStateEvent s u ("label_jid" :: l :: c :: rest) v =
      (initChatLabels (initLabels s u) u).setAssocs u
        (mergeAssoc (s.assocsOf u) c l (stringsContains v "labeled:true")) := by
  simp only [handleLabelAppStateEvent, Store.setAssocs]
  simp only [show ("label_jid" = "label_edit") = False by decide, if_false, if_true]
  rw [initChatLabels_getD, assocsOf_initLabels]

/-- The caches after a generic delta whose index path is ignored: only the
guards that create the empty namespaces have run. -/
theorem handleLabelAppStateEvent_ignored (s : Store) (u : String) (Index : List String)
    (v : String) (h : ignoredIndex Index) :
    handleLabelAppStateEvent s u Index v = initChatLabels (initLabels s u) u := by
  match Index, h with
  | [], _ => simp [handleLabelAppStateEvent]
  | [i0], _ => simp [handleLabelAppStateEvent]
  | [i0, l], _ =>
    by_cases h1 : i0 = "label_edit"
    · simp [handleLabelAppStateEvent, h1]
    · by_cases h2 : i0 = "label_jid"
      · simp [handleLabelAppStateEvent, h2]
      · simp [handleLabelAppStateEvent, h1, h2]
  | i0 :: l :: c :: rest, h =>
    by_cases h1 : i0 = "label_edit"
    · simp [handleLabelAppStateEvent, h1]
    · have h2 : i0 ≠ "label_jid" := by
        intro e
        subst e
        simp [ignoredIndex] at h
        omega
      simp [handleLabelAppStateEvent, h1, h2]

/-! ## Claims on generic deltas and on typed association events -/

/-- C15: in every reachable store state, after a generic `AppState` delta for
user `u` whose index path is `label_jid, l, c, ...`, the pair `(c, l)` occurs
exactly once in `u`'s list when the formatted action value contains
`labeled:true` and not at all otherwise; the entries for other pairs are the
same, in the same order, and the label table of every user has the same
contents. -/
theorem generic_label_jid_result (s : Store) (h : Reachable s) (u l c : String)
    (rest : List String) (v w : String) :
    ((processLabelEvents s u (.AppState ("label_jid" :: l :: c :: rest) v)).store.assocsOf
        u).count ⟨c, l⟩ = (if stringsContains v "labeled:true" = true then 1 else 0) ∧
      ((processLabelEvents s u (.AppState ("label_jid" :: l :: c :: rest) v)).store.assocsOf
          u).filter (fun x => decide (x ≠ ⟨c, l⟩)) =
        (s.assocsOf u).filter (fun x => decide (x ≠ ⟨c, l⟩)) ∧
      (processLabelEvents s u (.AppState ("label_jid" :: l :: c :: rest) v)).store.labelsOf w =
        s.labelsOf w := by
  have hwf := wf_of_reachable h
  simp only [processLabelEvents]
  rw [handleLabelAppStateEvent_label_jid, assocsOf_set, labelsOf_setAssocs,
    labelsOf_initChatLabels, labelsOf_initLabels]
  exact ⟨count_mergeAssoc (nodup_assocsOf hwf u) _ _ _, filter_ne_mergeAssoc _ _ _ _, rfl⟩

/-- C15, at the sample caches: a delta that unlabels the chat tagged there. -/
theorem generic_label_jid_result_witness :
    Reachable sampleStore ∧
      ((processLabelEvents sampleStore "u1"
          (.AppState ["label_jid", "importante", "123@c.us"]
            "labelAssociationAction:\x7blabeled:false\x7d")).store.assocsOf "u1").count
        ⟨"123@c.us", "importante"⟩ =
        (if stringsContains "labelAssociationAction:\x7blabeled:false\x7d" "labeled:true" = true
          then 1 else 0) :=
  ⟨⟨_, rfl⟩, (generic_label_jid_result sampleStore ⟨_, rfl⟩ "u1" "importante" "123@c.us" []
    "labelAssociationAction:\x7blabeled:false\x7d" "u1").1⟩

/-- C16: a generic `AppState` delta whose index path is ignored (fewer than 2
elements, a first element that is neither `label_edit` nor `label_jid`, a path
beginning with `label_edit`, or `label_jid` with exactly 2 elements) leaves the
labels and the associations of every user with the same contents, a user
without a namespace counting as having none. -/
theorem ignored_delta_keeps_contents (s : Store) (u : String) (Index : List String)
    (v : String) (h : ignoredIndex Index) (w : String) :
    (processLabelEvents s u (.AppState Index v)).store.labelsOf w = s.labelsOf w ∧
      (processLabelEvents s u (.AppState Index v)).store.assocsOf w = s.assocsOf w := by
  simp only [processLabelEvents]
  rw [handleLabelAppStateEvent_ignored s u Index v h, labelsOf_initChatLabels,
    labelsOf_initLabels, assocsOf_initChatLabels, assocsOf_initLabels]
  exact ⟨rfl, rfl⟩

/-- C16, at the sample caches: a `label_jid` path with only 2 elements. -/
theorem ignored_delta_keeps_contents_witness :
    (processLabelEvents sampleStore "u2" (.AppState ["label_jid", "importante"]
        "labeled:true")).store.labelsOf "u2" = sampleStore.labelsOf "u2" ∧
      (processLabelEvents sampleStore "u2" (.AppState ["label_jid", "importante"]
        "labeled:true")).store.assocsOf "u2" = sampleStore.assocsOf "u2" :=
  ignored_delta_keeps_contents sampleStore "u2" ["label_jid", "importante"] "labeled:true"
    (Or.inr (Or.inr (Or.inr ⟨rfl, rfl⟩))) "u2"

/-- C17: in a reachable store state, after a successful
`AssociateChatLabel(u, c, l)` followed by a typed `LabelAssociationChat` event
for `u` whose JID renders as `c`, with label `l` and `labeled = false`, `u`'s
association list has no entry for `(c, l)`. -/
theorem associate_then_unlabel_event (s : Store) (h : Reachable s) (env : Env)
    (u c l : String)
    (hok : (AssociateChatLabel env s u (some ⟨c, l⟩)).resp.isError = false) :
    (⟨c, l⟩ : ChatLabelAssociation) ∈
        (AssociateChatLabel env s u (some ⟨c, l⟩)).store.assocsOf u ∧
      (⟨c, l⟩ : ChatLabelAssociation) ∉
        (processLabelEvents (AssociateChatLabel env s u (some ⟨c, l⟩)).store u
          (.LabelAssociationChat ⟨c⟩ l (some ⟨some false⟩))).store.assocsOf u := by
  have hwf := wf_AssociateChatLabel (wf_of_reachable h) env u (some ⟨c, l⟩)
  constructor
  · rw [AssociateChatLabel_store_of_ok env s u c l hok, assocsOf_set]
    have h1 := count_mergeAssoc (nodup_assocsOf (wf_of_reachable h) u) c l true
    simp only [if_true] at h1
    exact List.count_pos_iff.1 (by omega)
  rw [processLabelEvents_assoc, assocsOf_set]
  have hc := count_mergeAssoc (nodup_assocsOf hwf u) c l false
  simp only [Bool.false_eq_true, if_false] at hc
  have hd : decide ((some ⟨some false⟩ : Option LabelAssociationAction) = some ⟨some true⟩)
      = false := by decide
  rw [hd]
  exact List.count_eq_zero.1 hc

/-- C17, at the scenario of the specification: `c = "123@c.us"`,
`l = "importante"`, on empty caches. -/
theorem associate_then_unlabel_event_witness :
    Reachable Store.empty ∧
      (⟨"123@c.us", "importante"⟩ : ChatLabelAssociation) ∈
        (AssociateChatLabel envOk Store.empty "u1"
          (some ⟨"123@c.us", "importante"⟩)).store.assocsOf "u1" ∧
      (⟨"123@c.us", "importante"⟩ : ChatLabelAssociation) ∉
        (processLabelEvents
          (AssociateChatLabel envOk Store.empty "u1" (some ⟨"123@c.us", "importante"⟩)).store "u1"
          (.LabelAssociationChat ⟨"123@c.us"⟩ "importante" (some ⟨some false⟩))).store.assocsOf
            "u1" :=
  ⟨⟨[], rfl⟩, associate_then_unlabel_event Store.empty ⟨[], rfl⟩ envOk "u1" "123@c.us"
    "importante" (by decide)⟩

/-- C18: a typed `LabelAssociationChat` event with `labeled = false` whose pair
is not in the user's association list is reconciled like any other (the
function returns 1) and leaves the association list of every user with the
same contents and the label cache unchanged. -/
theorem unlabel_of_absent_pair (s : Store) (u : String) (jid : JID) (l : String)
    (hnot : (⟨jid.str, l⟩ : ChatLabelAssociation) ∉ s.assocsOf u) (w : String) :
    (processLabelEvents s u (.LabelAssociationChat jid l (some ⟨some false⟩))).dowebhook = 1 ∧
      (processLabelEvents s u (.LabelAssociationChat jid l (some ⟨some false⟩))).store.assocsOf
        w = s.assocsOf w ∧
      (processLabelEvents s u
        (.LabelAssociationChat jid l (some ⟨some false⟩))).store.labelsCache = s.labelsCache := by
  refine ⟨rfl, ?_, ?_⟩
  · rw [processLabelEvents_assoc]
    have hd : decide ((some ⟨some false⟩ : Option LabelAssociationAction) = some ⟨some true⟩)
        = false := by decide
    rw [hd]
    have hm : mergeAssoc (s.assocsOf u) jid.str l false = s.assocsOf u := by
      simp only [mergeAssoc, Bool.false_eq_true, if_false, removeFirstAssoc_eq_erase]
      exact List.erase_of_not_mem hnot
    rw [hm]
    by_cases hw : w = u
    · subst hw
      exact assocsOf_set _ _ _
    · exact assocsOf_setAssocs_ne _ _ hw
  · rw [processLabelEvents_assoc]
    rfl

/-- C18, at the sample caches: an unlabel event for a pair never added. -/
theorem unlabel_of_absent_pair_witness :
    (processLabelEvents sampleStore "u1"
        (.LabelAssociationChat ⟨"999@c.us"⟩ "trabalho" (some ⟨some false⟩))).dowebhook = 1 ∧
      (processLabelEvents sampleStore "u1"
        (.LabelAssociationChat ⟨"999@c.us"⟩ "trabalho" (some ⟨some false⟩))).store.assocsOf
        "u1" = sampleStore.assocsOf "u1" ∧
      (processLabelEvents sampleStore "u1"
        (.LabelAssociationChat ⟨"999@c.us"⟩ "trabalho"
          (some ⟨some false⟩))).store.labelsCache = sampleStore.labelsCache :=
  unlabel_of_absent_pair sampleStore "u1" ⟨"999@c.us"⟩ "trabalho" (by decide) "u1"

/-- C20: in every store state reachable from the empty caches by gateway calls
(successful or failed), the seeding handler and reconciled events, every stored
label has `Active` equal to the negation of `Deleted`. -/
theorem reachable_active_eq_not_deleted (s : Store) (h : Reachable s) (u k : String)
    (l : LabelInfo) (hl : (s.labelsOf u).get? k = some l) : l.Active = !l.Deleted :=
  ((labelsWF_labelsOf (wf_of_reachable h) u).2 (k, l) (GoMap.mem_of_get? _ hl)).2

/-- C20, at the caches where `u1` deleted its label. -/
theorem reachable_active_eq_not_deleted_witness :
    Reachable sampleDeleted ∧
      (sampleDeleted.labelsOf "u1").get? "label_1700000000_Urgent" =
        some ⟨"label_1700000000_Urgent", "Urgent", 0, "", true, false⟩ ∧
      (⟨"label_1700000000_Urgent", "Urgent", 0, "", true, false⟩ : LabelInfo).Active =
        !(⟨"label_1700000000_Urgent", "Urgent", 0, "", true, false⟩ : LabelInfo).Deleted :=
  have hr : Reachable sampleDeleted :=
    ⟨[ .gateway envOk "u1" (.CreateLabel (some ⟨"Urgent", 0⟩)),
       .gateway envOk "u1" (.AssociateChatLabel (some ⟨"123@c.us", "importante"⟩)),
       .gateway envOk "u1" (.DeleteLabel (some ⟨"label_1700000000_Urgent"⟩)) ], rfl⟩
  ⟨hr, by decide, reachable_active_eq_not_deleted sampleDeleted hr "u1"
    "label_1700000000_Urgent" ⟨"label_1700000000_Urgent", "Urgent", 0, "", true, false⟩
    (by decide)⟩

/-! ## What one call can do to the label cache -/

/-- The label cache after a `CreateLabel`: untouched, or one assignment in the
caller's table. -/
theorem CreateLabel_labels_cases (env : Env) (s : Store) (txtid : String)
    (body : Option CreateLabelRequest) :
    (CreateLabel env s txtid body).store = s ∨
      ∃ k v, (CreateLabel env s txtid body).store =
        s.setLabels txtid ((s.labelsOf txtid).set k v) := by
  unfold CreateLabel
  cases env.GetMyClient txtid with
  | none => exact Or.inl rfl
  | some mycli =>
    cases body with
    | none => exact Or.inl rfl
    | some req =>
      by_cases hn : req.Name = ""
      · simp [hn, respondError]
      · simp only [hn, if_false]
        cases mycli.SendAppState _ with
        | some err => exact Or.inl rfl
        | none => exact Or.inr ⟨_, _, rfl⟩

/-- The label cache after a `DeleteLabel`: untouched, or one assignment in the
caller's table. -/
theorem DeleteLabel_labels_cases (env : Env) (s : Store) (txtid : String)
    (body : Option DeleteLabelRequest) :
    (DeleteLabel env s txtid body).store = s ∨
      ∃ k v, (DeleteLabel env s txtid body).store =
        s.setLabels txtid ((s.labelsOf txtid).set k v) := by
  unfold DeleteLabel
  cases env.GetMyClient txtid with
  | none => exact Or.inl rfl
  | some mycli =>
    cases body with
    | none => exact Or.inl rfl
    | some req =>
      by_cases hn : req.LabelID = ""
      · simp [hn, respondError]
      · simp only [hn, if_false]
        cases mycli.SendAppState _ with
        | some err => exact Or.inl rfl
        | none =>
          simp only
          cases hg : s.labelsCache.get? txtid with
          | none => exact Or.inl rfl
          | some m =>
            simp only
            cases hl : m.get? req.LabelID with
            | none => exact Or.inl rfl
            | some l =>
              refine Or.inr ⟨req.LabelID, { l with Active := false, Deleted := true }, ?_⟩
              simp [Store.setLabels, Store.labelsOf, hg]

/-- The label cache after an `EditLabel`: untouched, or one assignment in the
caller's table. -/
theorem EditLabel_labels_cases (env : Env) (s : Store) (txtid : String)
    (body : Option EditLabelRequest) :
    (EditLabel env s txtid body).store = s ∨
      ∃ k v, (EditLabel env s txtid body).store =
        s.setLabels txtid ((s.labelsOf txtid).set k v) := by
  unfold EditLabel
  cases env.GetMyClient txtid with
  | none => exact Or.inl rfl
  | some mycli =>
    cases body with
    | none => exact Or.inl rfl
    | some req =>
      by_cases hn : req.LabelID = "" ∨ req.Name = ""
      · simp [hn, respondError]
      · simp only [hn, if_false]
        cases mycli.SendAppState _ with
        | some err => exact Or.inl rfl
        | none =>
          simp only
          cases (s.labelsCache.get? txtid).bind (fun m => m.get? req.LabelID) with
          | none => exact Or.inr ⟨_, _, rfl⟩
          | some l => exact Or.inr ⟨_, _, rfl⟩

/-- The association handlers never write the label cache. -/
theorem AssociateChatLabel_labelsCache (env : Env) (s : Store) (txtid : String)
    (body : Option AssociateLabelRequest) :
    (AssociateChatLabel env s txtid body).store.labelsCache = s.labelsCache := by
  unfold AssociateChatLabel
  cases env.GetMyClient txtid with
  | none => rfl
  | some mycli =>
    cases body with
    | none => rfl
    | some req =>
      by_cases hn : req.ChatJID = "" ∨ req.LabelID = ""
      · simp [hn, respondError]
      · simp only [hn, if_false]
        cases env.parseJID req.ChatJID with
        | none => rfl
        | some chatJID =>
          simp only
          cases mycli.SendAppState _ <;> rfl

theorem DisassociateChatLabel_labelsCache (env : Env) (s : Store) (txtid : String)
    (body : Option AssociateLabelRequest) :
    (DisassociateChatLabel env s txtid body).store.labelsCache = s.labelsCache := by
  unfold DisassociateChatLabel
  cases env.GetMyClient txtid with
  | none => rfl
  | some mycli =>
    cases body with
    | none => rfl
    | some req =>
      by_cases hn : req.ChatJID = "" ∨ req.LabelID = ""
      · simp [hn, respondError]
      · simp only [hn, if_false]
        cases env.parseJID req.ChatJID with
        | none => rfl
        | some chatJID =>
          simp only
          cases mycli.SendAppState _ with
          | some err => rfl
          | none =>
            simp only
            cases s.chatLabelsCache.get? txtid <;> rfl

/-- The caches after the handler `CreateCommonLabels`: untouched, or seeded. -/
theorem CreateCommonLabels_cases (env : Env) (s : Store) (txtid : String) :
    (CreateCommonLabels env s txtid).store = s ∨
      (CreateCommonLabels env s txtid).store = createCommonLabels s txtid := by
  unfold CreateCommonLabels
  cases env.GetMyClient txtid with
  | none => exact Or.inl rfl
  | some mycli =>
    cases hc : mycli.IsConnected with
    | false => simp [hc, respondError]
    | true => simp [hc]

theorem labelsOf_eq_of_labelsCache {s t : Store} (h : t.labelsCache = s.labelsCache)
    (w : String) : t.labelsOf w = s.labelsOf w := by
  simp [Store.labelsOf, h]

/-- One assignment in a user's table keeps every bound key of every table. -/
theorem get?_setLabels_set_ne_none (s : Store) (u k' : String) (v : LabelInfo) (w k : String)
    (h : (s.labelsOf w).get? k ≠ none) :
    ((s.setLabels u ((s.labelsOf u).set k' v)).labelsOf w).get? k ≠ none := by
  by_cases hw : w = u
  · subst hw
    rw [labelsOf_set]
    by_cases hk : k = k'
    · subst hk
      simp [GoMap.get?_set_self]
    · rw [GoMap.get?_set_ne _ _ hk]
      exact h
  · rw [labelsOf_setLabels_ne _ _ hw]
    exact h

theorem createCommonLabels_get?_ne_none (s : Store) (u w k : String)
    (h : (s.labelsOf w).get? k ≠ none) :
    ((createCommonLabels s u).labelsOf w).get? k ≠ none := by
  by_cases hw : w = u
  · subst hw
    rw [createCommonLabels_get?]
    cases hg : (s.labelsOf w).get? k with
    | none => exact absurd hg h
    | some l => simp
  · rw [createCommonLabels_eq, labelsOf_setLabels_ne _ _ hw]
    exact h

theorem GoMap.mem_keys_iff {V : Type} (m : GoMap V) (k : String) :
    k ∈ m.keys ↔ m.get? k ≠ none := by
  rw [Ne, GoMap.get?_eq_none_iff, not_not]

/-- C19: no call removes a label from the cache: for every call (a gateway
request, the seeding handler, or an event of any shape), every user, and every
label ID that is a key of the user's label table before the call, the ID is
still a key of that table afterwards. -/
theorem label_keys_kept (op : Op) (s : Store) (w k : String)
    (h : k ∈ (s.labelsOf w).keys) : k ∈ ((op.run s).labelsOf w).keys := by
  rw [GoMap.mem_keys_iff] at h ⊢
  have hcases : ∀ t : Store, (t = s ∨ ∃ u k' v, t = s.setLabels u ((s.labelsOf u).set k' v)) →
      (t.labelsOf w).get? k ≠ none := by
    rintro t (rfl | ⟨u, k', v, rfl⟩)
    · exact h
    · exact get?_setLabels_set_ne_none s u k' v w k h
  cases op with
  | gateway env txtid call =>
    cases call with
    | CreateLabel body =>
      rcases CreateLabel_labels_cases env s txtid body with e | ⟨k', v, e⟩
      · exact hcases _ (Or.inl e)
      · exact hcases _ (Or.inr ⟨txtid, k', v, e⟩)
    | EditLabel body =>
      rcases EditLabel_labels_cases env s txtid body with e | ⟨k', v, e⟩
      · exact hcases _ (Or.inl e)
      · exact hcases _ (Or.inr ⟨txtid, k', v, e⟩)
    | DeleteLabel body =>
      rcases DeleteLabel_labels_cases env s txtid body with e | ⟨k', v, e⟩
      · exact hcases _ (Or.inl e)
      · exact hcases _ (Or.inr ⟨txtid, k', v, e⟩)
    | AssociateChatLabel body =>
      simp only [Op.run, GatewayCall.run]
      rw [labelsOf_eq_of_labelsCache (AssociateChatLabel_labelsCache env s txtid body)]
      exact h
    | DisassociateChatLabel body =>
      simp only [Op.run, GatewayCall.run]
      rw [labelsOf_eq_of_labelsCache (DisassociateChatLabel_labelsCache env s txtid body)]
      exact h
  | CreateCommonLabels env txtid =>
    simp only [Op.run]
    rcases CreateCommonLabels_cases env s txtid with e | e
    · rw [e]
      exact h
    · rw [e]
      exact createCommonLabels_get?_ne_none s txtid w k h
  | event u evt =>
    cases evt with
    | AppState Index v =>
      simp only [Op.run, processLabelEvents]
      have e : (handleLabelAppStateEvent s u Index v).labelsOf w = s.labelsOf w := by
        have hi : ((initChatLabels (initLabels s u) u)).labelsOf w = s.labelsOf w := by
          rw [labelsOf_initChatLabels, labelsOf_initLabels]
        unfold handleLabelAppStateEvent
        simp only
        split
        · split
          · exact hi
          · split
            · split
              · exact hi
              · exact hi
            · exact hi
        · exact hi
      rw [e]
      exact h
    | LabelAssociationChat jid l a =>
      simp only [Op.run]
      rw [processLabelEvents_assoc, labelsOf_setAssocs]
      exact h
    | LabelEdit i a =>
      simp only [Op.run]
      rw [processLabelEvents_edit]
      exact get?_setLabels_set_ne_none s u i _ w k h
    | other => exact h

/-- C19, at the caches where `u1` deleted its label: the key survived the
deletion. -/
theorem label_keys_kept_witness :
    "label_1700000000_Urgent" ∈ (sampleStore.labelsOf "u1").keys ∧
      "label_1700000000_Urgent" ∈
        (((Op.gateway envOk "u1"
          (.DeleteLabel (some ⟨"label_1700000000_Urgent"⟩))).run sampleStore).labelsOf
            "u1").keys :=
  ⟨by decide, label_keys_kept
    (.gateway envOk "u1" (.DeleteLabel (some ⟨"label_1700000000_Urgent"⟩))) sampleStore "u1"
    "label_1700000000_Urgent" (by decide)⟩

/-! ## Claims on the generated label ID and on `DeleteLabel` -/

/-- C21: for every name and clock reading `ts`, the label ID `CreateLabel`
generates is `label_`, the decimal form of `ts`, `_`, and the name with every
space replaced by an underscore (character by character); a successful call
sends its patch under this ID, stores the label under it, and returns it as
`label_id`. -/
theorem created_label_id (env : Env) (s : Store) (txtid name : String) (color : Int)
    (mycli : MyClient) (hcli : env.GetMyClient txtid = some mycli) (hname : name ≠ "")
    (hsend : mycli.SendAppState
      (Patch.BuildLabelEdit (newLabelID env.now name) name color false) = none) :
    newLabelID env.now name =
        "label_" ++ toString env.now ++ "_" ++
          String.mk (name.data.map (fun c => if c = ' ' then '_' else c)) ∧
      (CreateLabel env s txtid (some ⟨name, color⟩)).sent =
        [Patch.BuildLabelEdit (newLabelID env.now name) name color false] ∧
      ((CreateLabel env s txtid (some ⟨name, color⟩)).store.labelsOf txtid).get?
          (newLabelID env.now name) =
        some ⟨newLabelID env.now name, name, color, "", false, true⟩ ∧
      (CreateLabel env s txtid (some ⟨name, color⟩)).resp.body =
        .created (newLabelID env.now name) name color
          "Label created successfully via WhatsApp AppState" := by
  rw [CreateLabel_ok env s txtid name color mycli hcli hname hsend]
  refine ⟨rfl, rfl, ?_, rfl⟩
  rw [labelsOf_set]
  exact GoMap.get?_set_self _ _ _

/-- C21, at the scenario of the specification: the name `Urgent` at clock
1700000000 gives `label_1700000000_Urgent`, and a name with spaces has them
replaced. -/
theorem created_label_id_witness :
    newLabelID 1700000000 "Urgent" = "label_1700000000_Urgent" ∧
      newLabelID (-5) "to do  later" = "label_-5_to_do__later" ∧
      (CreateLabel envOk Store.empty "u1" (some ⟨"Urgent", 0⟩)).resp.body =
        .created "label_1700000000_Urgent" "Urgent" 0
          "Label created successfully via WhatsApp AppState" :=
  ⟨by decide, by decide,
    (created_label_id envOk Store.empty "u1" "Urgent" 0 clientOk rfl (by decide) rfl).2.2.2.trans
      (by decide)⟩

/-- C22: for every store state and every non-empty label ID, the patch
`DeleteLabel` hands to `SendAppState` is `BuildLabelEdit(id, n, c, true)` where
`n` and `c` are the name and color of the entry stored for the ID at the time
of the call, or the empty string and 0 when the user has no such entry. -/
theorem delete_patch (env : Env) (s : Store) (txtid id : String) (mycli : MyClient)
    (hcli : env.GetMyClient txtid = some mycli) (hid : id ≠ "") :
    (DeleteLabel env s txtid (some ⟨id⟩)).sent =
      [Patch.BuildLabelEdit id
        (match (s.labelsOf txtid).get? id with
          | some l => l.Name
          | none => "")
        (match (s.labelsOf txtid).get? id with
          | some l => l.Color
          | none => 0)
        true] := by
  simp only [DeleteLabel, hcli, hid, if_false, labelsOf_get?]
  cases mycli.SendAppState _ <;> rfl

/-- C22, at the sample caches: the patch for the label created there carries
its name and color. -/
theorem delete_patch_witness :
    (DeleteLabel envOk sampleStore "u1" (some ⟨"label_1700000000_Urgent"⟩)).sent =
      [Patch.BuildLabelEdit "label_1700000000_Urgent" "Urgent" 0 true] :=
  (delete_patch envOk sampleStore "u1" "label_1700000000_Urgent" clientOk rfl
    (by decide)).trans (by decide)

/-- C23: for every store state and every non-empty label ID without an entry in
the user's label table, a `DeleteLabel` whose remote send succeeds answers 200
with the success message and leaves both caches exactly as they were: no entry
is created for the ID. -/
theorem delete_of_unknown (env : Env) (s : Store) (txtid id : String) (mycli : MyClient)
    (hcli : env.GetMyClient txtid = some mycli) (hid : id ≠ "")
    (hnone : (s.labelsOf txtid).get? id = none)
    (hsend : mycli.SendAppState (Patch.BuildLabelEdit id "" 0 true) = none) :
    (DeleteLabel env s txtid (some ⟨id⟩)).resp =
        ⟨200, .message "Label deleted successfully via WhatsApp AppState"⟩ ∧
      (DeleteLabel env s txtid (some ⟨id⟩)).store = s := by
  have hn := hnone
  rw [← labelsOf_get?] at hn
  simp only [DeleteLabel, hcli, hid, if_false, hn, hsend]
  refine ⟨trivial, ?_⟩
  cases hg : s.labelsCache.get? txtid with
  | none => rfl
  | some m =>
    simp only [hg, Option.bind] at hn
    simp [hn]

/-- C23, at the sample caches: deleting an ID that was never stored. -/
theorem delete_of_unknown_witness :
    (DeleteLabel envOk sampleStore "u1" (some ⟨"ghost"⟩)).resp =
        ⟨200, .message "Label deleted successfully via WhatsApp AppState"⟩ ∧
      (DeleteLabel envOk sampleStore "u1" (some ⟨"ghost"⟩)).store = sampleStore :=
  delete_of_unknown envOk sampleStore "u1" "ghost" clientOk rfl (by decide) (by decide) rfl

/-! ## Claims on the session checks of the gateway handlers -/

/-- The outcome of a gateway request of a user without a client. -/
theorem run_of_absent_client (env : Env) (s : Store) (txtid : String) (call : GatewayCall)
    (h : env.GetMyClient txtid = none) :
    call.run env s txtid = respondError s 404 "client not found" [] := by
  cases call <;> simp [GatewayCall.run, CreateLabel, EditLabel, DeleteLabel,
    AssociateChatLabel, DisassociateChatLabel, h]

/-- A gateway request never reads `IsConnected`: the outcome depends on the
client only through `SendAppState`. -/
theorem run_congr_client (env env' : Env) (s : Store) (txtid : String) (call : GatewayCall)
    (c c' : MyClient) (hc : env.GetMyClient txtid = some c)
    (hc' : env'.GetMyClient txtid = some c') (hsend : c.SendAppState = c'.SendAppState)
    (hparse : env.parseJID = env'.parseJID) (hnow : env.now = env'.now) :
    call.run env s txtid = call.run env' s txtid := by
  cases call <;> simp only [GatewayCall.run, CreateLabel, EditLabel, DeleteLabel,
    AssociateChatLabel, DisassociateChatLabel, hc, hc', hsend, hparse, hnow]

/-- C24: the gateway handlers miss the connection check of their siblings.
With a client that is present but reports not connected, `ListLabels` and
`CreateCommonLabels` answer 400 `client not connected`, while `CreateLabel`
still hands its patch to `SendAppState`: when the send is accepted the call
answers 200 and stores the label, and when the send fails the call answers
with the remote-send error 500. -/
theorem disconnected_client_still_sends :
    ListLabels envDisconnected Store.empty "u1" = ⟨400, .error "client not connected"⟩ ∧
      (CreateCommonLabels envDisconnected Store.empty "u1").resp =
        ⟨400, .error "client not connected"⟩ ∧
      clientDisconnected.IsConnected = false ∧
      (CreateLabel envDisconnected Store.empty "u1" (some ⟨"Urgent", 0⟩)).sent =
        [Patch.BuildLabelEdit "label_1700000000_Urgent" "Urgent" 0 false] ∧
      (CreateLabel envDisconnected Store.empty "u1" (some ⟨"Urgent", 0⟩)).resp.status = 200 ∧
      (CreateLabel envDisconnected Store.empty "u1" (some ⟨"Urgent", 0⟩)).store ≠ Store.empty ∧
      clientDisconnectedFailing.IsConnected = false ∧
      (CreateLabel envDisconnectedFailing Store.empty "u1" (some ⟨"Urgent", 0⟩)).sent =
        [Patch.BuildLabelEdit "label_1700000000_Urgent" "Urgent" 0 false] ∧
      (CreateLabel envDisconnectedFailing Store.empty "u1" (some ⟨"Urgent", 0⟩)).resp =
        ⟨500, .error "failed to create label: not connected"⟩ := by
  refine ⟨by decide, by decide, rfl, by decide, by decide, by decide, rfl, by decide,
    by decide⟩

/-- What the five gateway handlers do about the session, for every request:
when the user's client is absent the call answers with the client-not-found
error 404, hands no patch to `SendAppState` and leaves both caches unchanged;
when the client is present `IsConnected` is never read, so the outcome is the
same whatever it reports. -/
theorem absent_session_fails_connection_unread (env : Env) (s : Store) (txtid : String)
    (call : GatewayCall) :
    (env.GetMyClient txtid = none →
      (call.run env s txtid).resp = ⟨404, .error "client not found"⟩ ∧
        (call.run env s txtid).sent = [] ∧ (call.run env s txtid).store = s) ∧
      (∀ (mycli : MyClient) (b : Bool), env.GetMyClient txtid = some mycli →
        call.run ⟨fun _ => some ⟨b, mycli.SendAppState⟩, env.parseJID, env.now⟩ s txtid =
          call.run env s txtid) := by
  constructor
  · intro h
    rw [run_of_absent_client env s txtid call h]
    exact ⟨rfl, rfl, rfl⟩
  · intro mycli b h
    exact run_congr_client _ env s txtid call ⟨b, mycli.SendAppState⟩ mycli rfl h rfl rfl rfl

/-- A user without a client asks to tag a chat: 404, no patch, same caches. -/
theorem absent_session_fails_connection_unread_witness :
    ((GatewayCall.AssociateChatLabel (some ⟨"123@c.us", "importante"⟩)).run envAbsent
        sampleStore "u1").resp = ⟨404, .error "client not found"⟩ ∧
      ((GatewayCall.AssociateChatLabel (some ⟨"123@c.us", "importante"⟩)).run envAbsent
        sampleStore "u1").sent = [] ∧
      ((GatewayCall.AssociateChatLabel (some ⟨"123@c.us", "importante"⟩)).run envAbsent
        sampleStore "u1").store = sampleStore :=
  (absent_session_fails_connection_unread envAbsent sampleStore "u1"
    (.AssociateChatLabel (some ⟨"123@c.us", "importante"⟩))).1 rfl

/-- The outcome of a gateway request with an empty required field, for a user
who has a client. -/
theorem run_of_emptyField (env : Env) (s : Store) (txtid : String) (call : GatewayCall)
    (mycli : MyClient) (hc : env.GetMyClient txtid = some mycli) (h : call.emptyField) :
    ∃ msg, call.run env s txtid = respondError s 400 msg [] ∧
      msg ∈ ["name is required", "label_id and name are required",
             "label_id is required", "chat_jid and label_id are required"] := by
  cases call with
  | CreateLabel body =>
    cases body with
    | none => exact absurd h (by simp [GatewayCall.emptyField])
    | some req =>
      simp only [GatewayCall.emptyField] at h
      exact ⟨"name is required", by simp [GatewayCall.run, CreateLabel, hc, h], by simp⟩
  | EditLabel body =>
    cases body with
    | none => exact absurd h (by simp [GatewayCall.emptyField])
    | some req =>
      simp only [GatewayCall.emptyField] at h
      exact ⟨"label_id and name are required",
        by simp [GatewayCall.run, EditLabel, hc, h], by simp⟩
  | DeleteLabel body =>
    cases body with
    | none => exact absurd h (by simp [GatewayCall.emptyField])
    | some req =>
      simp only [GatewayCall.emptyField] at h
      exact ⟨"label_id is required", by simp [GatewayCall.run, DeleteLabel, hc, h], by simp⟩
  | AssociateChatLabel body =>
    cases body with
    | none => exact absurd h (by simp [GatewayCall.emptyField])
    | some req =>
      simp only [GatewayCall.emptyField] at h
      exact ⟨"chat_jid and label_id are required",
        by simp [GatewayCall.run, AssociateChatLabel, hc, h], by simp⟩
  | DisassociateChatLabel body =>
    cases body with
    | none => exact absurd h (by simp [GatewayCall.emptyField])
    | some req =>
      simp only [GatewayCall.emptyField] at h
      exact ⟨"chat_jid and label_id are required",
        by simp [GatewayCall.run, DisassociateChatLabel, hc, h], by simp⟩

/-- C25, refuted: for a user without a client, a `CreateLabel` with an empty
name answers with the client-not-found error 404, not with the validation
error. -/
theorem absent_session_beats_validation :
    (GatewayCall.CreateLabel (some ⟨"", 0⟩)).emptyField ∧
      (CreateLabel envAbsent Store.empty "u1" (some ⟨"", 0⟩)).resp =
        ⟨404, .error "client not found"⟩ ∧
      (CreateLabel envOk Store.empty "u1" (some ⟨"", 0⟩)).resp =
        ⟨400, .error "name is required"⟩ :=
  ⟨rfl, by decide, by decide⟩

/-- C25, amended: every gateway operation looks up the session first and
validates the required fields next: when the session is absent a request with
an empty required field is answered with the client-not-found error 404; when
the session is present (connected or not) it is answered with the validation
error 400 of the operation, and only that; in both cases no patch is handed to
`SendAppState` and both caches are unchanged. -/
theorem session_then_validation (env : Env) (s : Store) (txtid : String)
    (call : GatewayCall) (h : call.emptyField) :
    (call.run env s txtid).sent = [] ∧ (call.run env s txtid).store = s ∧
      (env.GetMyClient txtid = none →
        (call.run env s txtid).resp = ⟨404, .error "client not found"⟩) ∧
      (env.GetMyClient txtid ≠ none →
        ∃ msg, (call.run env s txtid).resp = ⟨400, .error msg⟩ ∧
          msg ∈ ["name is required", "label_id and name are required",
                 "label_id is required", "chat_jid and label_id are required"]) := by
  cases hc : env.GetMyClient txtid with
  | none =>
    rw [run_of_absent_client env s txtid call hc]
    exact ⟨rfl, rfl, fun _ => rfl, fun hne => absurd rfl hne⟩
  | some mycli =>
    obtain ⟨msg, hrun, hmsg⟩ := run_of_emptyField env s txtid call mycli hc h
    rw [hrun]
    exact ⟨rfl, rfl, fun hn => Option.noConfusion hn, fun _ => ⟨msg, rfl, hmsg⟩⟩

/-- C25 amended, at a concrete call: a disconnected client and an edit request
without a name. -/
theorem session_then_validation_witness :
    ((GatewayCall.EditLabel (some ⟨"7", "", 0⟩)).run envDisconnected sampleStore "u1").sent = [] ∧
      ((GatewayCall.EditLabel (some ⟨"7", "", 0⟩)).run envDisconnected sampleStore "u1").store =
        sampleStore ∧
      ((GatewayCall.EditLabel (some ⟨"7", "", 0⟩)).run envDisconnected sampleStore "u1").resp =
        ⟨400, .error "label_id and name are required"⟩ :=
  have hw := session_then_validation envDisconnected sampleStore "u1"
    (.EditLabel (some ⟨"7", "", 0⟩)) (Or.inr rfl)
  ⟨hw.1, hw.2.1, by decide⟩

/-! ## Claims on removal and on per-user isolation -/

theorem removeSpec_eq (xs : List ChatLabelAssociation) (c l : String) :
    removeSpec xs c l = removeFirstAssoc xs c l := by
  induction xs with
  | nil => rfl
  | cons a rest ih =>
    by_cases h : a.ChatJID = c ∧ a.LabelID = l
    · simp [removeSpec, removeFirstAssoc, h]
    · have hb : (a.ChatJID == c && a.LabelID == l) = false := by
        simpa using h
      simp only [removeSpec, h, if_false, removeFirstAssoc, List.eraseP_cons, hb, cond_false]
      rw [ih]
      rfl

theorem filter_eq_erase {xs : List ChatLabelAssociation} (h : xs.Nodup) (c l : String) :
    xs.filter (fun a => !(a.ChatJID == c && a.LabelID == l)) = xs.erase ⟨c, l⟩ := by
  rw [h.erase_eq_filter]
  congr 1
  funext a
  obtain ⟨c', l'⟩ := a
  by_cases e : (⟨c', l'⟩ : ChatLabelAssociation) = ⟨c, l⟩
  · have e' := e
    simp only [ChatLabelAssociation.mk.injEq] at e'
    simp [e'.1, e'.2]
  · have hne : ((⟨c', l'⟩ : ChatLabelAssociation) != ⟨c, l⟩) = true := by
      simpa using e
    rw [hne]
    simp only [ChatLabelAssociation.mk.injEq, not_and] at e
    by_cases h1 : c' = c
    · simp [h1, e h1]
    · simp [h1]

/-- The association list of the caller after a `DisassociateChatLabel` that did
not answer with an error: every entry with this chat and label is filtered
out. -/
theorem DisassociateChatLabel_assocs_of_ok (env : Env) (s : Store) (txtid c l : String)
    (h : (DisassociateChatLabel env s txtid (some ⟨c, l⟩)).resp.isError = false) :
    (DisassociateChatLabel env s txtid (some ⟨c, l⟩)).store.assocsOf txtid =
      (s.assocsOf txtid).filter (fun a => !(a.ChatJID == c && a.LabelID == l)) := by
  unfold DisassociateChatLabel at h ⊢
  cases hc : env.GetMyClient txtid with
  | none => simp [hc, respondError, Response.isError] at h
  | some mycli =>
    simp only [hc] at h ⊢
    by_cases he : c = "" ∨ l = ""
    · simp [he, respondError, Response.isError] at h
    · simp only [he, if_false] at h ⊢
      cases hp : env.parseJID c with
      | none => simp [hp, respondError, Response.isError] at h
      | some chatJID =>
        simp only [hp] at h ⊢
        cases hs : mycli.SendAppState (Patch.BuildLabelChat chatJID l false) with
        | some err => simp [hs, respondError, Response.isError] at h
        | none =>
          simp only
          cases hg : s.chatLabelsCache.get? txtid with
          | none => simp [Store.assocsOf, hg]
          | some xs => simp [Store.assocsOf, hg, GoMap.get?_set_self]

/-- C27: in every reachable store state, the list a successful
`DisassociateChatLabel(u, c, l)` leaves is the user's list with the first entry
matching `(c, l)` deleted if there is one and the same list otherwise (the
removal as the specification words it, which keeps the other entries in their
order), and it is identical to the list the reconciler leaves after a typed
event for the same pair whose `labeled` is not true. -/
theorem disassociate_is_first_match_removal (s : Store) (h : Reachable s) (env : Env)
    (u c l : String)
    (hok : (DisassociateChatLabel env s u (some ⟨c, l⟩)).resp.isError = false)
    (a : Option LabelAssociationAction) (ha : a ≠ some ⟨some true⟩) :
    (DisassociateChatLabel env s u (some ⟨c, l⟩)).store.assocsOf u =
        removeSpec (s.assocsOf u) c l ∧
      (DisassociateChatLabel env s u (some ⟨c, l⟩)).store.assocsOf u =
        (processLabelEvents s u (.LabelAssociationChat ⟨c⟩ l a)).store.assocsOf u := by
  have hx := nodup_assocsOf (wf_of_reachable h) u
  have hd : decide (a = some ⟨some true⟩) = false := by simpa using ha
  rw [DisassociateChatLabel_assocs_of_ok env s u c l hok, filter_eq_erase hx, removeSpec_eq,
    removeFirstAssoc_eq_erase, processLabelEvents_assoc, assocsOf_set, hd]
  simp [mergeAssoc, removeFirstAssoc_eq_erase]

/-- C27, at the sample caches: the chat tagged there is untagged by the handler
and by an event without a `labeled` field. -/
theorem disassociate_is_first_match_removal_witness :
    Reachable sampleStore ∧
      (DisassociateChatLabel envOk sampleStore "u1"
          (some ⟨"123@c.us", "importante"⟩)).store.assocsOf "u1" =
        removeSpec (sampleStore.assocsOf "u1") "123@c.us" "importante" ∧
      (DisassociateChatLabel envOk sampleStore "u1"
          (some ⟨"123@c.us", "importante"⟩)).store.assocsOf "u1" =
        (processLabelEvents sampleStore "u1"
          (.LabelAssociationChat ⟨"123@c.us"⟩ "importante" (some ⟨none⟩))).store.assocsOf "u1" :=
  ⟨⟨_, rfl⟩, disassociate_is_first_match_removal sampleStore ⟨_, rfl⟩ envOk "u1" "123@c.us"
    "importante" (by decide) (some ⟨none⟩) (by decide)⟩

theorem agreeOff_refl (s : Store) (u : String) : s.agreeOff s u :=
  fun _ _ => ⟨rfl, rfl⟩

theorem agreeOff_trans {s t r : Store} {u : String} (h₁ : s.agreeOff t u)
    (h₂ : t.agreeOff r u) : s.agreeOff r u :=
  fun v hv => ⟨(h₂ v hv).1.trans (h₁ v hv).1, (h₂ v hv).2.trans (h₁ v hv).2⟩

theorem agreeOff_setLabels (s : Store) (u : String) (m : GoMap LabelInfo) :
    s.agreeOff (s.setLabels u m) u :=
  fun _ hv => ⟨GoMap.get?_set_ne _ _ hv, rfl⟩

theorem agreeOff_setAssocs (s : Store) (u : String) (xs : List ChatLabelAssociation) :
    s.agreeOff (s.setAssocs u xs) u :=
  fun _ hv => ⟨rfl, GoMap.get?_set_ne _ _ hv⟩

theorem agreeOff_initLabels (s : Store) (u : String) : s.agreeOff (initLabels s u) u := by
  unfold initLabels
  cases s.labelsCache.get? u with
  | none => exact agreeOff_setLabels s u []
  | some _ => exact agreeOff_refl s u

theorem agreeOff_initChatLabels (s : Store) (u : String) :
    s.agreeOff (initChatLabels s u) u := by
  unfold initChatLabels
  cases s.chatLabelsCache.get? u with
  | none => exact agreeOff_setAssocs s u []
  | some _ => exact agreeOff_refl s u

theorem agreeOff_of_eq {s t : Store} (u : String) (h : t = s) : s.agreeOff t u := by
  subst h
  exact agreeOff_refl _ u

theorem agreeOff_AssociateChatLabel (env : Env) (s : Store) (txtid : String)
    (body : Option AssociateLabelRequest) :
    s.agreeOff (AssociateChatLabel env s txtid body).store txtid := by
  unfold AssociateChatLabel
  cases env.GetMyClient txtid with
  | none => exact agreeOff_refl s _
  | some mycli =>
    cases body with
    | none => exact agreeOff_refl s _
    | some req =>
      by_cases hn : req.ChatJID = "" ∨ req.LabelID = ""
      · simpa [hn, respondError] using agreeOff_refl s txtid
      · simp only [hn, if_false]
        cases env.parseJID req.ChatJID with
        | none => exact agreeOff_refl s _
        | some chatJID =>
          simp only
          cases mycli.SendAppState _ with
          | some err => exact agreeOff_refl s _
          | none => exact agreeOff_setAssocs s txtid _

theorem agreeOff_DisassociateChatLabel (env : Env) (s : Store) (txtid : String)
    (body : Option AssociateLabelRequest) :
    s.agreeOff (DisassociateChatLabel env s txtid body).store txtid := by
  unfold DisassociateChatLabel
  cases env.GetMyClient txtid with
  | none => exact agreeOff_refl s _
  | some mycli =>
    cases body with
    | none => exact agreeOff_refl s _
    | some req =>
      by_cases hn : req.ChatJID = "" ∨ req.LabelID = ""
      · simpa [hn, respondError] using agreeOff_refl s txtid
      · simp only [hn, if_false]
        cases env.parseJID req.ChatJID with
        | none => exact agreeOff_refl s _
        | some chatJID =>
          simp only
          cases mycli.SendAppState _ with
          | some err => exact agreeOff_refl s _
          | none =>
            simp only
            cases s.chatLabelsCache.get? txtid with
            | none => exact agreeOff_refl s _
            | some xs => exact agreeOff_setAssocs s txtid _

theorem agreeOff_handleLabelAppStateEvent (s : Store) (u : String) (Index : List String)
    (v : String) : s.agreeOff (handleLabelAppStateEvent s u Index v) u := by
  have hi : s.agreeOff (initChatLabels (initLabels s u) u) u :=
    agreeOff_trans (agreeOff_initLabels s u) (agreeOff_initChatLabels _ u)
  unfold handleLabelAppStateEvent
  simp only
  split
  · split
    · exact hi
    · split
      · split
        · exact agreeOff_trans hi (agreeOff_setAssocs _ u _)
        · exact hi
      · exact hi
  · exact hi

/-- C29: per-user isolation: for every call made on behalf of user `u` (a
gateway request, the seeding handler, or an event delivered to `u`'s client)
and every other user `v`, the label table and the association list of `v` are
the same before and after the call. -/
theorem other_users_untouched (op : Op) (s : Store) (v : String) (hv : v ≠ op.user) :
    (op.run s).labelsCache.get? v = s.labelsCache.get? v ∧
      (op.run s).chatLabelsCache.get? v = s.chatLabelsCache.get? v := by
  suffices h : s.agreeOff (op.run s) op.user from h v hv
  cases op with
  | gateway env txtid call =>
    cases call with
    | CreateLabel body =>
      rcases CreateLabel_labels_cases env s txtid body with e | ⟨k, x, e⟩
      · exact agreeOff_of_eq _ e
      · exact agreeOff_trans (agreeOff_setLabels s txtid _) (agreeOff_of_eq _ e)
    | EditLabel body =>
      rcases EditLabel_labels_cases env s txtid body with e | ⟨k, x, e⟩
      · exact agreeOff_of_eq _ e
      · exact agreeOff_trans (agreeOff_setLabels s txtid _) (agreeOff_of_eq _ e)
    | DeleteLabel body =>
      rcases DeleteLabel_labels_cases env s txtid body with e | ⟨k, x, e⟩
      · exact agreeOff_of_eq _ e
      · exact agreeOff_trans (agreeOff_setLabels s txtid _) (agreeOff_of_eq _ e)
    | AssociateChatLabel body => exact agreeOff_AssociateChatLabel env s txtid body
    | DisassociateChatLabel body => exact agreeOff_DisassociateChatLabel env s txtid body
  | CreateCommonLabels env txtid =>
    rcases CreateCommonLabels_cases env s txtid with e | e
    · exact agreeOff_of_eq _ e
    · refine agreeOff_trans ?_ (agreeOff_of_eq _ e)
      rw [createCommonLabels_eq]
      exact agreeOff_setLabels s txtid _
  | event u evt =>
    cases evt with
    | AppState Index x => exact agreeOff_handleLabelAppStateEvent s u Index x
    | LabelAssociationChat jid l a =>
      refine agreeOff_trans ?_ (agreeOff_of_eq _ (processLabelEvents_assoc s u jid l a))
      exact agreeOff_setAssocs s u _
    | LabelEdit i a =>
      refine agreeOff_trans ?_ (agreeOff_of_eq _ (processLabelEvents_edit s u i a))
      exact agreeOff_setLabels s u _
    | other => exact agreeOff_refl s u

/-- C29, at the sample caches: a label-edit event for `u2` leaves `u1` as it
was. -/
theorem other_users_untouched_witness :
    ((Op.event "u2" (.LabelEdit "7" none)).run sampleStore).labelsCache.get? "u1" =
        sampleStore.labelsCache.get? "u1" ∧
      ((Op.event "u2" (.LabelEdit "7" none)).run sampleStore).chatLabelsCache.get? "u1" =
        sampleStore.chatLabelsCache.get? "u1" :=
  other_users_untouched (.event "u2" (.LabelEdit "7" none)) sampleStore "u1" (by decide)

/-! ## Claim on the font validation of `StatusSendText` -/

/-- C28: `isValidFont` diverges from the range 0-10 that the field comment and
the error text of `StatusSendText` announce: the font 3 lies between 0 and 10
and is rejected, so the handler answers 400 with the text `must be between
0-10`; the same holds for 4 and 5. -/
theorem font_three_rejected :
    ¬ (isValidFont 3 = true ↔ (0 ≤ (3 : Int) ∧ (3 : Int) ≤ 10)) ∧
      isValidFont 4 = false ∧ isValidFont 5 = false ∧
      StatusSendText_fontGate (some 3) =
        some ⟨400, .error "invalid font - must be between 0-10"⟩ := by
  refine ⟨?_, by decide, by decide, by decide⟩
  intro h
  have h3 : isValidFont 3 = true := h.2 ⟨by decide, by decide⟩
  exact absurd h3 (by decide)

/-- The fonts the code accepts: `isValidFont(f)` is true if and only if `f` is
one of 0, 1, 2, 6, 7, 8, 9, 10, that is, between 0 and 10 and none of 3, 4, 5;
`StatusSendText` lets a request pass its font gate exactly when no font is
supplied or the supplied font passes `isValidFont`. -/
theorem valid_font_iff (f : Int) :
    (isValidFont f = true ↔ (0 ≤ f ∧ f ≤ 10 ∧ f ≠ 3 ∧ f ≠ 4 ∧ f ≠ 5)) ∧
      (StatusSendText_fontGate (some f) = none ↔ isValidFont f = true) ∧
      StatusSendText_fontGate none = none := by
  refine ⟨?_, ?_, rfl⟩
  · simp only [isValidFont, validFonts, List.any_cons, List.any_nil, Bool.or_false,
      Bool.or_eq_true, beq_iff_eq]
    omega
  · cases hv : isValidFont f <;> simp [StatusSendText_fontGate, hv]

/-! ## Claim on the order of event merges -/

theorem ignoredIndex_of_not_label_jid (Index : List String)
    (h : ∀ l c rest, Index ≠ "label_jid" :: l :: c :: rest) : ignoredIndex Index := by
  match Index, h with
  | [], _ => exact Or.inl (by simp)
  | [i0], _ => exact Or.inl (by simp)
  | [i0, l], _ =>
    by_cases h2 : i0 = "label_jid"
    · exact Or.inr (Or.inr (Or.inr ⟨by simp [h2], rfl⟩))
    · by_cases h1 : i0 = "label_edit"
      · exact Or.inr (Or.inr (Or.inl (by simp [h1])))
      · exact Or.inr (Or.inl ⟨by simpa using h1, by simpa using h2⟩)
  | i0 :: l :: c :: rest, h =>
    have h2 : i0 ≠ "label_jid" := fun e => h l c rest (by rw [e])
    by_cases h1 : i0 = "label_edit"
    · exact Or.inr (Or.inr (Or.inl (by simp [h1])))
    · exact Or.inr (Or.inl ⟨by simpa using h1, by simpa using h2⟩)

theorem assocTarget_of_not_label_jid (Index : List String) (v : String)
    (h : ∀ l c rest, Index ≠ "label_jid" :: l :: c :: rest) :
    (Event.AppState Index v).assocTarget = none := by
  unfold Event.assocTarget
  split
  · rename_i heq
    cases heq
  · rename_i l c rest x heq
    cases heq
    exact absurd rfl (h l c rest)
  · rfl

/-- The association list of the user after an event, by the target of the
event. -/
theorem assocsOf_event (s : Store) (u : String) (e : Event) :
    (processLabelEvents s u e).store.assocsOf u =
      (match e.assocTarget with
        | some (p, b) => mergeAssoc (s.assocsOf u) p.ChatJID p.LabelID b
        | none => s.assocsOf u) := by
  cases e with
  | AppState Index v =>
    by_cases h : ∃ l c rest, Index = "label_jid" :: l :: c :: rest
    · obtain ⟨l, c, rest, rfl⟩ := h
      simp only [processLabelEvents, handleLabelAppStateEvent_label_jid, assocsOf_set,
        Event.assocTarget]
    · have h' : ∀ l c rest, Index ≠ "label_jid" :: l :: c :: rest :=
        fun l c rest e => h ⟨l, c, rest, e⟩
      rw [assocTarget_of_not_label_jid Index v h']
      simp only [processLabelEvents]
      rw [handleLabelAppStateEvent_ignored s u Index v (ignoredIndex_of_not_label_jid Index h'),
        assocsOf_initChatLabels, assocsOf_initLabels]
  | LabelAssociationChat jid l a =>
    rw [processLabelEvents_assoc, assocsOf_set]
    rfl
  | LabelEdit i a =>
    rw [processLabelEvents_edit]
    rfl
  | other => rfl

theorem labelsOf_handleLabelAppStateEvent (s : Store) (u w : String) (Index : List String)
    (v : String) : (handleLabelAppStateEvent s u Index v).labelsOf w = s.labelsOf w := by
  have hi : ((initChatLabels (initLabels s u) u)).labelsOf w = s.labelsOf w := by
    rw [labelsOf_initChatLabels, labelsOf_initLabels]
  unfold handleLabelAppStateEvent
  simp only
  split
  · split
    · exact hi
    · split
      · split
        · exact hi
        · exact hi
      · exact hi
  · exact hi

/-- The label table of the user after an event, by the target of the event. -/
theorem labelsOf_event (s : Store) (u : String) (e : Event) :
    (processLabelEvents s u e).store.labelsOf u =
      (match e.labelTarget with
        | some r => (s.labelsOf u).set r.ID r
        | none => s.labelsOf u) := by
  cases e with
  | AppState Index v => exact labelsOf_handleLabelAppStateEvent s u u Index v
  | LabelAssociationChat jid l a =>
    rw [processLabelEvents_assoc]
    rfl
  | LabelEdit i a =>
    rw [processLabelEvents_edit, labelsOf_set]
    simp only [Event.labelTarget, labelInfoOfEdit_ID]
  | other => rfl

theorem agreeOff_processLabelEvents (s : Store) (u : String) (e : Event) :
    s.agreeOff (processLabelEvents s u e).store u := by
  cases e with
  | AppState Index x => exact agreeOff_handleLabelAppStateEvent s u Index x
  | LabelAssociationChat jid l a =>
    refine agreeOff_trans ?_ (agreeOff_of_eq _ (processLabelEvents_assoc s u jid l a))
    exact agreeOff_setAssocs s u _
  | LabelEdit i a =>
    refine agreeOff_trans ?_ (agreeOff_of_eq _ (processLabelEvents_edit s u i a))
    exact agreeOff_setLabels s u _
  | other => exact agreeOff_refl s u

theorem mem_mergeAssoc {xs : List ChatLabelAssociation} (h : xs.Nodup) (c l : String)
    (b : Bool) (x : ChatLabelAssociation) :
    x ∈ mergeAssoc xs c l b ↔ (if x = ⟨c, l⟩ then b = true else x ∈ xs) := by
  cases b with
  | true =>
    by_cases hf : foundAssoc xs c l = true
    · have hm := (foundAssoc_iff xs c l).1 hf
      by_cases hx : x = ⟨c, l⟩
      · simp [mergeAssoc, hf, hx, hm]
      · simp [mergeAssoc, hf, hx]
    · by_cases hx : x = ⟨c, l⟩
      · simp [mergeAssoc, hf, hx]
      · simp [mergeAssoc, hf, hx]
  | false =>
    simp only [mergeAssoc, Bool.false_eq_true, if_false, removeFirstAssoc_eq_erase,
      h.mem_erase_iff]
    by_cases hx : x = ⟨c, l⟩
    · simp [hx]
    · simp [hx]

/-- Membership in the user's list after an event, in a well-formed state. -/
theorem mem_assocsOf_event {s : Store} (h : s.WF) (u : String) (e : Event)
    (x : ChatLabelAssociation) :
    x ∈ (processLabelEvents s u e).store.assocsOf u ↔
      (match e.assocTarget with
        | some (p, b) => if x = p then b = true else x ∈ s.assocsOf u
        | none => x ∈ s.assocsOf u) := by
  rw [assocsOf_event]
  cases e.assocTarget with
  | none => rfl
  | some pb =>
    obtain ⟨⟨c, l⟩, b⟩ := pb
    exact mem_mergeAssoc (nodup_assocsOf h u) c l b x

/-- A lookup in the user's label table after an event. -/
theorem get?_labelsOf_event (s : Store) (u : String) (e : Event) (k : String) :
    ((processLabelEvents s u e).store.labelsOf u).get? k =
      (match e.labelTarget with
        | some r => if k = r.ID then some r else (s.labelsOf u).get? k
        | none => (s.labelsOf u).get? k) := by
  rw [labelsOf_event]
  cases e.labelTarget with
  | none => rfl
  | some r =>
    by_cases hk : k = r.ID
    · simp only [hk, if_true]
      exact GoMap.get?_set_self _ _ _
    · simp only [hk, if_false]
      exact GoMap.get?_set_ne _ _ hk

/-- C26, refuted: on the empty caches, a typed event that labels a chat
followed by one that unlabels it leaves the pair out of the list, and the same
two events in the other order leave it in. -/
theorem label_unlabel_order_matters :
    Reachable Store.empty ∧
      (⟨"123@c.us", "importante"⟩ : ChatLabelAssociation) ∉
        (processLabelEvents
          (processLabelEvents Store.empty "u1"
            (.LabelAssociationChat ⟨"123@c.us"⟩ "importante" (some ⟨some true⟩))).store "u1"
          (.LabelAssociationChat ⟨"123@c.us"⟩ "importante"
            (some ⟨some false⟩))).store.assocsOf "u1" ∧
      (⟨"123@c.us", "importante"⟩ : ChatLabelAssociation) ∈
        (processLabelEvents
          (processLabelEvents Store.empty "u1"
            (.LabelAssociationChat ⟨"123@c.us"⟩ "importante" (some ⟨some false⟩))).store "u1"
          (.LabelAssociationChat ⟨"123@c.us"⟩ "importante"
            (some ⟨some true⟩))).store.assocsOf "u1" :=
  ⟨⟨[], rfl⟩, by decide, by decide⟩

/-- C26, amended: in every reachable store state, two events delivered to the
client of the same user that do not conflict (they do not merge the same
(chat, label) pair with different `labeled` outcomes, and do not upsert the same
label ID with different records) can be reconciled in either order: every
lookup in every user's label table gives the same result and every user's
association list has the same members. -/
theorem events_commute_unless_conflict (s : Store) (h : Reachable s) (u : String)
    (e₁ e₂ : Event) (hc : ¬ e₁.conflicts e₂) (w k : String) (x : ChatLabelAssociation) :
    ((processLabelEvents (processLabelEvents s u e₁).store u e₂).store.labelsOf w).get? k =
        ((processLabelEvents (processLabelEvents s u e₂).store u e₁).store.labelsOf w).get? k ∧
      (x ∈ (processLabelEvents (processLabelEvents s u e₁).store u e₂).store.assocsOf w ↔
        x ∈ (processLabelEvents (processLabelEvents s u e₂).store u e₁).store.assocsOf w) := by
  have hwf := wf_of_reachable h
  have hwf₁ := wf_processLabelEvents hwf u e₁
  have hwf₂ := wf_processLabelEvents hwf u e₂
  by_cases hw : w = u
  · subst hw
    constructor
    · rw [get?_labelsOf_event, get?_labelsOf_event, get?_labelsOf_event, get?_labelsOf_event]
      cases h₁ : e₁.labelTarget with
      | none => cases e₂.labelTarget <;> rfl
      | some r₁ =>
        cases h₂ : e₂.labelTarget with
        | none => rfl
        | some r₂ =>
          simp only
          by_cases hid : r₁.ID = r₂.ID
          · have hr : r₁ = r₂ := by
              by_contra hne
              exact hc (Or.inr ⟨r₁, r₂, h₁, h₂, hid, hne⟩)
            subst hr
            by_cases hk : k = r₁.ID <;> simp [hk]
          · by_cases hk₁ : k = r₁.ID
            · have hk₂ : k ≠ r₂.ID := fun e => hid (hk₁.symm.trans e)
              simp [hk₁, hk₂, hid]
            · simp [hk₁]
    · rw [mem_assocsOf_event hwf₁, mem_assocsOf_event hwf₂, mem_assocsOf_event hwf,
        mem_assocsOf_event hwf]
      cases h₁ : e₁.assocTarget with
      | none => cases e₂.assocTarget <;> rfl
      | some pb₁ =>
        obtain ⟨p₁, b₁⟩ := pb₁
        cases h₂ : e₂.assocTarget with
        | none => rfl
        | some pb₂ =>
          obtain ⟨p₂, b₂⟩ := pb₂
          simp only
          by_cases hp : p₁ = p₂
          · subst hp
            have hb : b₁ = b₂ := by
              by_contra hne
              exact hc (Or.inl ⟨p₁, b₁, b₂, h₁, h₂, hne⟩)
            subst hb
            by_cases hx : x = p₁ <;> simp [hx]
          · by_cases hx₁ : x = p₁
            · have hx₂ : x ≠ p₂ := fun e => hp (hx₁.symm.trans e)
              simp [hx₁, hx₂, hp]
            · simp [hx₁]
  · have a₁ := agreeOff_processLabelEvents s u e₁ w hw
    have a₂ := agreeOff_processLabelEvents s u e₂ w hw
    have a₁₂ := agreeOff_processLabelEvents (processLabelEvents s u e₁).store u e₂ w hw
    have a₂₁ := agreeOff_processLabelEvents (processLabelEvents s u e₂).store u e₁ w hw
    simp only [Store.labelsOf, Store.assocsOf, a₁₂.1, a₂₁.1, a₁.1, a₂.1, a₁₂.2, a₂₁.2, a₁.2,
      a₂.2, and_self]

/-- C26 amended, at the sample caches: an unlabel event for the tagged chat and
a label-edit event commute. -/
theorem events_commute_unless_conflict_witness :
    Reachable sampleStore ∧
      ((⟨"123@c.us", "importante"⟩ : ChatLabelAssociation) ∈
          (processLabelEvents
            (processLabelEvents sampleStore "u1"
              (.LabelAssociationChat ⟨"123@c.us"⟩ "importante" (some ⟨some false⟩))).store "u1"
            (.LabelEdit "7" none)).store.assocsOf "u1" ↔
        (⟨"123@c.us", "importante"⟩ : ChatLabelAssociation) ∈
          (processLabelEvents
            (processLabelEvents sampleStore "u1" (.LabelEdit "7" none)).store "u1"
            (.LabelAssociationChat ⟨"123@c.us"⟩ "importante"
              (some ⟨some false⟩))).store.assocsOf "u1") :=
  ⟨⟨_, rfl⟩, (events_commute_unless_conflict sampleStore ⟨_, rfl⟩ "u1"
    (.LabelAssociationChat ⟨"123@c.us"⟩ "importante" (some ⟨some false⟩)) (.LabelEdit "7" none)
    (by
      rintro (⟨p, b₁, b₂, _, h₂, _⟩ | ⟨r₁, r₂, h₁, _, _, _⟩)
      · simp [Event.assocTarget] at h₂
      · simp [Event.labelTarget] at h₁)
    "u1" "7" ⟨"123@c.us", "importante"⟩).2⟩

/-! ## The decimal rendering `%d` -/

theorem digitChar_mem_decimalDigits (k : Nat) (h : k < 10) :
    Nat.digitChar k ∈ decimalDigits := by
  revert k
  decide

theorem digitChar_value (k : Nat) (h : k < 10) : (Nat.digitChar k).toNat - 48 = k := by
  revert k
  decide

theorem toDigitsCore_chars (f n : Nat) (ds : List Char) (c : Char)
    (h : c ∈ Nat.toDigitsCore 10 f n ds) : c ∈ ds ∨ c ∈ decimalDigits := by
  induction f generalizing n ds with
  | zero => exact Or.inl (by simpa [Nat.toDigitsCore] using h)
  | succ f ih =>
    have hd := digitChar_mem_decimalDigits (n % 10) (Nat.mod_lt _ (by decide))
    simp only [Nat.toDigitsCore] at h
    split at h
    · rcases List.mem_cons.1 h with e | e
      · exact Or.inr (e ▸ hd)
      · exact Or.inl e
    · rcases ih _ _ h with e | e
      · rcases List.mem_cons.1 e with e' | e'
        · exact Or.inr (e' ▸ hd)
        · exact Or.inl e'
      · exact Or.inr e

theorem toDigits_chars (n : Nat) (c : Char) (h : c ∈ Nat.toDigits 10 n) :
    c ∈ decimalDigits := by
  rcases toDigitsCore_chars _ _ _ _ h with e | e
  · simp at e
  · exact e

theorem digitsValue_foldl (ds : List Char) (a : Nat) :
    ds.foldl (fun acc c => 10 * acc + (c.toNat - 48)) a =
      a * 10 ^ ds.length + digitsValue ds := by
  induction ds generalizing a with
  | nil => simp [digitsValue]
  | cons d ds ih =>
    simp only [List.foldl_cons, digitsValue, List.length_cons]
    rw [ih, ih (10 * 0 + (d.toNat - 48))]
    ring

theorem digitsValue_cons (d : Char) (ds : List Char) :
    digitsValue (d :: ds) = (d.toNat - 48) * 10 ^ ds.length + digitsValue ds := by
  simp only [digitsValue, List.foldl_cons]
  rw [digitsValue_foldl]
  simp [digitsValue]

theorem toDigitsCore_value (f n : Nat) (ds : List Char) (h : n < f) :
    digitsValue (Nat.toDigitsCore 10 f n ds) = n * 10 ^ ds.length + digitsValue ds := by
  induction f generalizing n ds with
  | zero => omega
  | succ f ih =>
    have hv := digitChar_value (n % 10) (Nat.mod_lt _ (by decide))
    simp only [Nat.toDigitsCore]
    split
    · rename_i h0
      rw [digitsValue_cons, hv]
      have : n % 10 = n := by omega
      rw [this]
    · rename_i h0
      have hlt : n / 10 < f := by omega
      rw [ih _ _ hlt, digitsValue_cons, hv, List.length_cons, pow_succ]
      have hn : n = 10 * (n / 10) + n % 10 := (Nat.div_add_mod n 10).symm
      generalize 10 ^ ds.length = p at *
      generalize digitsValue ds = q at *
      generalize n / 10 = a at *
      generalize n % 10 = b at *
      subst hn
      ring

theorem toDigits_value (n : Nat) : digitsValue (Nat.toDigits 10 n) = n := by
  have h := toDigitsCore_value (n + 1) n [] (Nat.lt_succ_self n)
  simpa [Nat.toDigits, digitsValue] using h

theorem toDigits_injective {n m : Nat} (h : Nat.toDigits 10 n = Nat.toDigits 10 m) : n = m := by
  rw [← toDigits_value n, ← toDigits_value m, h]

theorem toString_int_data (i : Int) :
    (toString i).data =
      (match i with
        | .ofNat m => Nat.toDigits 10 m
        | .negSucc m => '-' :: Nat.toDigits 10 (m + 1)) := by
  cases i <;> rfl

theorem toString_int_chars (i : Int) (c : Char) (h : c ∈ (toString i).data) :
    c = '-' ∨ c ∈ decimalDigits := by
  rw [toString_int_data] at h
  cases i with
  | ofNat m => exact Or.inr (toDigits_chars m c h)
  | negSucc m =>
    rcases List.mem_cons.1 h with e | e
    · exact Or.inl e
    · exact Or.inr (toDigits_chars _ c e)

theorem toString_int_injective {i j : Int} (h : toString i = toString j) : i = j := by
  have hd : (toString i).data = (toString j).data := by rw [h]
  rw [toString_int_data, toString_int_data] at hd
  have hminus : '-' ∉ decimalDigits := by decide
  cases i with
  | ofNat m =>
    cases j with
    | ofNat k => rw [toDigits_injective hd]
    | negSucc k =>
      simp only at hd
      exact absurd (toDigits_chars m '-' (by rw [hd]; exact List.mem_cons_self _ _)) hminus
  | negSucc m =>
    cases j with
    | ofNat k =>
      simp only at hd
      exact absurd (toDigits_chars k '-' (by rw [← hd]; exact List.mem_cons_self _ _)) hminus
    | negSucc k =>
      simp only [List.cons.injEq, true_and] at hd
      have := toDigits_injective hd
      have hk : m = k := by omega
      rw [hk]

/-! ## Claim on collisions of generated label IDs -/

theorem append_sep_inj {xs xs' ys ys' : List Char} (c : Char) (h : c ∉ xs) (h' : c ∉ xs')
    (e : xs ++ c :: ys = xs' ++ c :: ys') : xs = xs' ∧ ys = ys' := by
  induction xs generalizing xs' with
  | nil =>
    cases xs' with
    | nil => simpa using e
    | cons a xs' =>
      simp only [List.nil_append, List.cons_append, List.cons.injEq] at e
      exact absurd (by simp [e.1]) h'
  | cons a xs ih =>
    cases xs' with
    | nil =>
      simp only [List.nil_append, List.cons_append, List.cons.injEq] at e
      exact absurd (by simp [e.1]) h
    | cons b xs' =>
      simp only [List.cons_append, List.cons.injEq] at e
      have := ih (fun m => h (List.mem_cons_of_mem _ m)) (fun m => h' (List.mem_cons_of_mem _ m))
        e.2
      exact ⟨by rw [e.1, this.1], this.2⟩

theorem newLabelID_data (ts : Int) (name : String) :
    (newLabelID ts name).data =
      "label_".data ++ ((toString ts).data ++ '_' :: (replaceSpaces name).data) := by
  simp [newLabelID, String.data_append]

theorem replaceSpaces_no_space (name : String) : ' ' ∉ (replaceSpaces name).data := by
  simp only [replaceSpaces, List.mem_map, not_exists, not_and]
  intro c _
  by_cases hc : c = ' '
  · simp [hc]
  · simp [hc]

theorem toString_int_no_char (i : Int) (c : Char) (h₁ : c ≠ '-') (h₂ : c ∉ decimalDigits) :
    c ∉ (toString i).data := by
  intro hm
  rcases toString_int_chars i c hm with e | e
  · exact h₁ e
  · exact h₂ e

/-- C30: the label ID `CreateLabel` generates never contains a space, and the
IDs of two creations are equal if and only if the clock readings are equal and
the names are equal after every space is replaced by an underscore; so `a b`
and `a_b` created in the same second get the same ID, and the second create
overwrites the entry of the first. -/
theorem label_id_collision (ts₁ ts₂ : Int) (n₁ n₂ : String) :
    ' ' ∉ (newLabelID ts₁ n₁).data ∧
      (newLabelID ts₁ n₁ = newLabelID ts₂ n₂ ↔
        ts₁ = ts₂ ∧ replaceSpaces n₁ = replaceSpaces n₂) ∧
      newLabelID ts₁ "a b" = newLabelID ts₁ "a_b" ∧
      ((CreateLabel envOk (CreateLabel envOk Store.empty "u1" (some ⟨"a b", 1⟩)).store "u1"
          (some ⟨"a_b", 2⟩)).store.labelsOf "u1") =
        [("label_1700000000_a_b", ⟨"label_1700000000_a_b", "a_b", 2, "", false, true⟩)] := by
  refine ⟨?_, ⟨?_, ?_⟩, ?_, by decide⟩
  · rw [newLabelID_data]
    simp only [List.mem_append, List.mem_cons, not_or]
    exact ⟨by decide, toString_int_no_char ts₁ ' ' (by decide) (by decide), by decide,
      replaceSpaces_no_space n₁⟩
  · intro h
    have hd : (newLabelID ts₁ n₁).data = (newLabelID ts₂ n₂).data := by rw [h]
    rw [newLabelID_data, newLabelID_data] at hd
    have hd' := List.append_cancel_left hd
    have hsplit := append_sep_inj '_'
      (toString_int_no_char ts₁ '_' (by decide) (by decide))
      (toString_int_no_char ts₂ '_' (by decide) (by decide)) hd'
    exact ⟨toString_int_injective (String.ext hsplit.1), String.ext hsplit.2⟩
  · rintro ⟨rfl, hr⟩
    simp only [newLabelID, hr]
  · have hr : replaceSpaces "a b" = replaceSpaces "a_b" := by decide
    simp only [newLabelID, hr]

end Wuzapi
